import Mathlib

/-!
Verification of the "Rare Visual Catalyst 3.6" service layer.

This file shallowly embeds the service-layer functions of the repository
(`geminiService` current and previous version, `falService`, `googleDriveService`)
in Lean 4 and proves the frozen claims about them.

Modelling conventions:
* JavaScript promises/async-await are embedded as pure functions from an
  explicit environment (the outcomes of the external API calls) to a result
  together with a trace of observable events (API calls, waits).  An `await`
  chain becomes sequential composition; the order of events in the trace is
  the temporal order of the calls.
* Thrown JS errors become `Except` errors; `try`/`catch` becomes matching.
* `JSON.parse` is a platform builtin, so functions that call it take an
  abstract parameter `jp : String → Option Json`; the executable `jsParse`
  below is a stand-in implementing the JSON fragment used by the concrete
  witnesses (literals, integers, strings, arrays, objects).
* JS strings are Lean `String`s, manipulated through `.data` char lists so
  that all definitions evaluate by kernel reduction.
* JS numbers in `calculateClosestAspectRatio` are embedded as rationals.
-/

/-! ## JS-style string helpers (all computable by kernel reduction) -/

/-- Lower-case an ASCII character, as `String.prototype.toLowerCase` does on
ASCII input (the only inputs the code compares). -/
def lowerChar (c : Char) : Char :=
  if 'A' ≤ c ∧ c ≤ 'Z' then Char.ofNat (c.toNat + 32) else c

/-- Upper-case an ASCII character (`String.prototype.toUpperCase` on ASCII). -/
def upperChar (c : Char) : Char :=
  if 'a' ≤ c ∧ c ≤ 'z' then Char.ofNat (c.toNat - 32) else c

/-- `s.toLowerCase()` on ASCII text. -/
def strLower (s : String) : String := String.mk (s.data.map lowerChar)

/-- `s.toUpperCase()` on ASCII text. -/
def strUpper (s : String) : String := String.mk (s.data.map upperChar)

/-- Does the list start with the given prefix of characters? -/
def listStartsWith : List Char → List Char → Bool
  | _, [] => true
  | [], _ :: _ => false
  | a :: as, b :: bs => a = b && listStartsWith as bs

/-- Does `hay` contain `needle` as a contiguous sublist?  Embeds
`String.prototype.includes`. -/
def hasSub (needle : List Char) : List Char → Bool
  | [] => listStartsWith [] needle
  | h :: t => listStartsWith (h :: t) needle || hasSub needle t

/-- `hay.includes(needle)` for strings. -/
def strContains (hay needle : String) : Bool := hasSub needle.data hay.data

/-- `s.startsWith(p)`. -/
def strStartsWith (s p : String) : Bool := listStartsWith s.data p.data

/-- JS `\s` whitespace on the ASCII range (space, tab, newline, CR, FF, VT). -/
def isWsChar (c : Char) : Bool :=
  c = ' ' || c = '\t' || c = '\n' || c = '\r' || c = Char.ofNat 12 || c = Char.ofNat 11

/-- Trim leading and trailing whitespace (JS `String.prototype.trim` /
the `\s*` padding of the code's regexes). -/
def trimChars (l : List Char) : List Char :=
  ((l.dropWhile isWsChar).reverse.dropWhile isWsChar).reverse

/-- `s.trim()`. -/
def strTrim (s : String) : String := String.mk (trimChars s.data)

/-- Remove every (left-to-right, non-overlapping) occurrence of the pattern
`p0 :: ps`; embeds `s.replace(/pat/g, '')` for a literal pattern. -/
def removeSub (p0 : Char) (ps : List Char) : List Char → List Char
  | [] => []
  | h :: t =>
    if listStartsWith (h :: t) (p0 :: ps) then removeSub p0 ps (t.drop ps.length)
    else h :: removeSub p0 ps t
termination_by l => l.length
decreasing_by
  · simp only [List.length_cons]
    exact Nat.lt_succ_of_le (List.length_drop ps.length t ▸ Nat.sub_le _ _)
  · simp

/-- The backtick character (kept out of source text by the code style). -/
def btick : Char := Char.ofNat 96

/-- The `\x7b` opening-brace character. -/
def lbraceChar : Char := Char.ofNat 123

/-- The `\x7d` closing-brace character. -/
def rbraceChar : Char := Char.ofNat 125

/-- Index of the first occurrence of `c` (JS `indexOf`, `none` for `-1`). -/
def firstIdx (c : Char) : List Char → Option Nat
  | [] => none
  | x :: xs => if x = c then some 0 else (firstIdx c xs).map (· + 1)

/-- Index of the last occurrence of `c` (JS `lastIndexOf`, `none` for `-1`). -/
def lastIdx (c : Char) (l : List Char) : Option Nat :=
  (firstIdx c l.reverse).map (fun i => l.length - 1 - i)

/-! ## A small JSON value type and executable parser

`jsParse` is the stand-in for the platform's `JSON.parse` used to
instantiate the abstract-parser theorems at concrete inputs.  It covers the
JSON fragment exercised by the witnesses: `null`, booleans, (integer)
numbers, strings with the common escapes, arrays and objects. -/

inductive Json where
  | null : Json
  | bool (b : Bool) : Json
  | num (n : Int) : Json
  | str (s : String) : Json
  | arr (elems : List Json) : Json
  | obj (fields : List (String × Json)) : Json
deriving Repr

/-- Skip JSON whitespace. -/
def skipWs : List Char → List Char
  | c :: cs => if c = ' ' || c = '\t' || c = '\n' || c = '\r' then skipWs cs else c :: cs
  | [] => []

/-- Decode a single-character JSON string escape. -/
def escDecode (c : Char) : Option Char :=
  if c = '"' then some '"'
  else if c = '\\' then some '\\'
  else if c = '/' then some '/'
  else if c = 'n' then some '\n'
  else if c = 't' then some '\t'
  else if c = 'r' then some '\r'
  else if c = 'b' then some (Char.ofNat 8)
  else if c = 'f' then some (Char.ofNat 12)
  else none

/-- Parse the body of a JSON string literal (after the opening quote),
returning the decoded characters and the rest of the input. -/
def parseStrChars : List Char → Option (List Char × List Char)
  | [] => none
  | c :: cs =>
    if c = '"' then some ([], cs)
    else if c = '\\' then
      match cs with
      | [] => none
      | e :: cs' =>
        match escDecode e with
        | none => none
        | some d => (parseStrChars cs').map (fun p => (d :: p.1, p.2))
    else (parseStrChars cs).map (fun p => (c :: p.1, p.2))

/-- Parse a run of decimal digits into a natural number. -/
def parseDigits (acc : Nat) : List Char → Option (Nat × List Char)
  | [] => some (acc, [])
  | c :: cs =>
    if c.isDigit then
      match parseDigits (acc * 10 + (c.toNat - 48)) cs with
      | some r => some r
      | none => none
    else some (acc, c :: cs)

mutual

/-- Parse one JSON value (fueled recursive descent). -/
def parseVal : Nat → List Char → Option (Json × List Char)
  | 0, _ => none
  | fuel + 1, input =>
    match skipWs input with
    | [] => none
    | c :: cs =>
      if c = 'n' then
        if listStartsWith cs ['u', 'l', 'l'] then some (.null, cs.drop 3) else none
      else if c = 't' then
        if listStartsWith cs ['r', 'u', 'e'] then some (.bool true, cs.drop 3) else none
      else if c = 'f' then
        if listStartsWith cs ['a', 'l', 's', 'e'] then some (.bool false, cs.drop 4) else none
      else if c = '"' then
        (parseStrChars cs).map (fun p => (.str (String.mk p.1), p.2))
      else if c = '-' then
        match cs with
        | d :: ds =>
          if d.isDigit then
            (parseDigits (d.toNat - 48) ds).map (fun p => (.num (-(p.1 : Int)), p.2))
          else none
        | [] => none
      else if c.isDigit then
        (parseDigits (c.toNat - 48) cs).map (fun p => (.num (p.1 : Int), p.2))
      else if c = '[' then
        match skipWs cs with
        | d :: ds => if d = ']' then some (.arr [], ds) else parseArrItems fuel [] (d :: ds)
        | [] => none
      else if c = lbraceChar then
        match skipWs cs with
        | d :: ds => if d = rbraceChar then some (.obj [], ds) else parseObjItems fuel [] (d :: ds)
        | [] => none
      else none

/-- Parse the remaining items of a JSON array (at least one value pending). -/
def parseArrItems : Nat → List Json → List Char → Option (Json × List Char)
  | 0, _, _ => none
  | fuel + 1, acc, input =>
    match parseVal fuel input with
    | none => none
    | some (v, rest) =>
      match skipWs rest with
      | c :: cs =>
        if c = ',' then parseArrItems fuel (acc ++ [v]) cs
        else if c = ']' then some (.arr (acc ++ [v]), cs)
        else none
      | [] => none

/-- Parse the remaining items of a JSON object (at least one pair pending). -/
def parseObjItems : Nat → List (String × Json) → List Char → Option (Json × List Char)
  | 0, _, _ => none
  | fuel + 1, acc, input =>
    match skipWs input with
    | c :: cs =>
      if c = '"' then
        match parseStrChars cs with
        | none => none
        | some (key, rest) =>
          match skipWs rest with
          | d :: ds =>
            if d = ':' then
              match parseVal fuel ds with
              | none => none
              | some (v, rest') =>
                match skipWs rest' with
                | e :: es =>
                  if e = ',' then parseObjItems fuel (acc ++ [(String.mk key, v)]) es
                  else if e = rbraceChar then some (.obj (acc ++ [(String.mk key, v)]), es)
                  else none
                | [] => none
            else none
          | [] => none
      else none
    | [] => none

end

/-- The executable stand-in for `JSON.parse`: parse a complete JSON document,
requiring the whole input (up to whitespace) to be consumed. -/
def jsParse (s : String) : Option Json :=
  match parseVal (s.data.length + 2) s.data with
  | some (v, rest) => if (skipWs rest).isEmpty then some v else none
  | none => none

/-! ## `parseJSON` (geminiService part_004 lines 77-126)

The tolerant parser of model output.  `jp` abstracts the platform's
`JSON.parse` (returning `none` where `JSON.parse` would throw). -/

/-- Split a char list at the first triple-backtick fence: returns the text
before the fence and the text after it. -/
def fenceSplit : List Char → Option (List Char × List Char)
  | [] => none
  | c :: cs =>
    if listStartsWith (c :: cs) [btick, btick, btick] then some ([], cs.drop 2)
    else (fenceSplit cs).map (fun p => (c :: p.1, p.2))

/-- The optional `json` language tag directly after the opening fence
(the regex's `(?:json)?`). -/
def dropJsonTag (l : List Char) : List Char :=
  if listStartsWith l ['j', 's', 'o', 'n'] then l.drop 4 else l

/-- The capture of `text.match(/```(?:json)?\s*([\s\S]*?)\s*```/)`: the text
between the first fence and the next one, after the optional `json` tag,
trimmed of surrounding whitespace; `none` when fewer than two fences exist. -/
def markdownFence (text : String) : Option String :=
  match fenceSplit text.data with
  | none => none
  | some (_, afterOpen) =>
    match fenceSplit afterOpen with
    | none => none
    | some (inner, _) => some (String.mk (trimChars (dropJsonTag inner)))

/-- `text.substring(s, e + 1)`. -/
def sliceOf (cs : List Char) (s e : Nat) : String :=
  String.mk ((cs.drop s).take (e + 1 - s))

/-- The fallback extraction of lines 89-119: the substring from the first
`\x7b` to the last `\x7d`, or from the first `[` to the last `]`, preferring
whichever structure opens first when both are present. -/
def jsonSliceCandidate (text : String) : Option String :=
  let cs := text.data
  let objRange : Option (Nat × Nat) :=
    match firstIdx lbraceChar cs, lastIdx rbraceChar cs with
    | some a, some b => if a < b then some (a, b) else none
    | _, _ => none
  let arrRange : Option (Nat × Nat) :=
    match firstIdx '[' cs, lastIdx ']' cs with
    | some a, some b => if a < b then some (a, b) else none
    | _, _ => none
  match objRange, arrRange with
  | some (oa, ob), some (aa, ab) =>
    if oa < aa then some (sliceOf cs oa ob) else some (sliceOf cs aa ab)
  | some (oa, ob), none => some (sliceOf cs oa ob)
  | none, some (aa, ab) => some (sliceOf cs aa ab)
  | none, none => none

/-- `parseJSON` (part_004 lines 77-126).  Strategy cascade exactly as coded:
standard parse; else the first markdown fence content, whose parse failure
throws (the inner `catch` does not fall through to the slice strategy);
else, when no fence matched, the brace/bracket slice; else throw. -/
def parseJSON (jp : String → Option Json) (text : String) : Except String Json :=
  match jp text with
  | some v => .ok v
  | none =>
    match markdownFence text with
    | some inner =>
      match jp inner with
      | some v => .ok v
      | none => .error "Invalid JSON response from API"
    | none =>
      match jsonSliceCandidate text with
      | some sub =>
        match jp sub with
        | some v => .ok v
        | none => .error "Invalid JSON response from API"
      | none => .error "Invalid JSON response from API"

/-! ## `retryOperation` (part_004 lines 15-34)

A fallible JS operation is embedded as `op : Nat → Except JsError α`, the
outcome of its `k`-th invocation.  `retryOperation op retries delay attempt`
returns the final outcome together with the list of waits (in ms) performed
before each retry. -/

/-- The shape of a caught JS error: optional numeric `status` and `code`
fields and an optional `message`. -/
structure JsError where
  status : Option Nat
  code : Option Nat
  message : Option String

/-- String interpolation of `e.message` (JS renders `undefined` for a
missing message). -/
def jsMessageOf (e : JsError) : String := e.message.getD "undefined"

/-- Lines 19-21: 503 by status/code, or message containing `overloaded` or
`unavailable` (case-insensitively). -/
def isOverloaded (e : JsError) : Bool :=
  e.status == some 503 || e.code == some 503 ||
    (match e.message with
     | some m => strContains (strLower m) "overloaded" || strContains (strLower m) "unavailable"
     | none => false)

/-- Lines 22-25: 429 by status/code, or message containing `429`, or
containing `resource_exhausted` or `quota` case-insensitively. -/
def isRateLimited (e : JsError) : Bool :=
  e.status == some 429 || e.code == some 429 ||
    (match e.message with
     | some m =>
       strContains m "429" || strContains (strLower m) "resource_exhausted" ||
         strContains (strLower m) "quota"
     | none => false)

/-- `retryOperation` (part_004 lines 15-34); the source defaults are
`retries = 4`, `delay = 2000`.  Second component: the successive waits. -/
def retryOperation (op : Nat → Except JsError α) (retries delay attempt : Nat) :
    Except JsError α × List Nat :=
  match op attempt with
  | .ok v => (.ok v, [])
  | .error e =>
    match retries with
    | 0 => (.error e, [])
    | r + 1 =>
      if isOverloaded e || isRateLimited e then
        let waitTime := if isRateLimited e then max delay 3000 else delay
        let next := retryOperation op r (delay * 2) (attempt + 1)
        (next.1, waitTime :: next.2)
      else (.error e, [])

/-! ## `calculateClosestAspectRatio` (part_004 lines 52-73 and the previous
service version part_005 lines 34-55)

JS numbers are embedded as rationals; `Number.MAX_VALUE` as `none` (larger
than every attained difference). -/

/-- `diff < minDiff` with `none` standing for `Number.MAX_VALUE`. -/
def mltOpt (d : ℚ) : Option ℚ → Bool
  | none => true
  | some m => decide (d < m)

/-- One iteration of the `for (const std of standards)` loop. -/
def closestStep (r : ℚ) (acc : String × Option ℚ) (std : String × ℚ) : String × Option ℚ :=
  if mltOpt |r - std.2| acc.2 then (std.1, some |r - std.2|) else acc

/-- The `standards` table shared by both copies. -/
def standardRatios : List (String × ℚ) :=
  [("1:1", 1), ("16:9", 16 / 9), ("9:16", 9 / 16), ("4:3", 4 / 3), ("3:4", 3 / 4)]

/-- The current service's copy (part_004 lines 52-73). -/
def calculateClosestAspectRatio (a : String) (customDims : Option (ℚ × ℚ)) : String :=
  if a ≠ "custom" then a
  else
    match customDims with
    | none => "1:1"
    | some (w, h) =>
      if w = 0 ∨ h = 0 then "1:1"
      else (standardRatios.foldl (closestStep (w / h)) ("1:1", none)).1

/-- The previous service version's copy (part_005 lines 34-55); the source
text of its body is identical to the current one. -/
def calculateClosestAspectRatioPrev (a : String) (customDims : Option (ℚ × ℚ)) : String :=
  if a ≠ "custom" then a
  else
    match customDims with
    | none => "1:1"
    | some (w, h) =>
      if w = 0 ∨ h = 0 then "1:1"
      else (standardRatios.foldl (closestStep (w / h)) ("1:1", none)).1

/-! ## `sequentialWithDelay` (part_004 lines 37-44)

A task is embedded as its eventual outcome paired with the trace of events
its execution produces.  The loop `await`s each task in order, inserting a
wait before every task except the first, and rethrows the first rejection
(ending the loop, so later tasks never run). -/

/-- The loop of `sequentialWithDelay`; `first` tracks `i = 0`. -/
def seqGo (mkWait : Nat → ev) (delayMs : Nat) :
    List (Except ε α × List ev) → Bool → Except ε (List α) × List ev
  | [], _ => (.ok [], [])
  | t :: ts, first =>
    let pre : List ev := if first then [] else [mkWait delayMs]
    match t.1 with
    | .error e => (.error e, pre ++ t.2)
    | .ok v =>
      let rest := seqGo mkWait delayMs ts false
      (rest.1.map (v :: ·), pre ++ t.2 ++ rest.2)

/-- `sequentialWithDelay` (part_004 lines 37-44); the source's default
`delayMs` is 1500. -/
def sequentialWithDelay (mkWait : Nat → ev) (delayMs : Nat)
    (tasks : List (Except ε α × List ev)) : Except ε (List α) × List ev :=
  seqGo mkWait delayMs tasks true

/-- The expected trace of a fully successful run: the first task's events,
then a wait followed by that task's events for every later task. -/
def interleavedTrace (mkWait : Nat → ev) (delayMs : Nat) : List (List ev) → List ev
  | [] => []
  | tr :: trs => tr ++ trs.flatMap (fun t => mkWait delayMs :: t)

/-! ## JS value coercions shared by the service embedding -/

/-- JS truthiness of a JSON value. -/
def jsTruthy : Json → Bool
  | .null => false
  | .bool b => b
  | .num n => n != 0
  | .str s => s != ""
  | .arr _ => true
  | .obj _ => true

/-- Field access `j[k]` on a parsed value (`none` for `undefined`). -/
def jsLookupField : Json → String → Option Json
  | .obj kvs, k => List.lookup k kvs
  | _, _ => none

/-- `j[k]` when truthy, as in `if (parsed[key]) ...` / `parsed.x || d`. -/
def truthyField (j : Json) (k : String) : Option Json :=
  match jsLookupField j k with
  | some v => if jsTruthy v then some v else none
  | none => none

/-- Shallow JS string coercion of a JSON value (the typed code only ever
stores strings here; other cases are JS edge behaviour approximations). -/
def jsDisplay : Json → String
  | .str s => s
  | .num n => toString n
  | .bool b => if b then "true" else "false"
  | .null => "null"
  | .arr _ => ""
  | .obj _ => "[object Object]"

/-- `response.text || "\x7b\x7d"`: the deck/brainstorm/social-copy calls
parse their text, defaulting the empty/missing text to an empty object. -/
def jsOrEmptyObj (t : Option String) : String :=
  match t with
  | some s => if s = "" then "\x7b\x7d" else s
  | none => "\x7b\x7d"

/-- `parsed.k || '...'` (used by `parseDescription`). -/
def jsFieldOrDots (j : Json) (k : String) : String :=
  match truthyField j k with
  | some v => jsDisplay v
  | none => "..."

/-- `parseDescription` (part_004 lines 200-209): strip fences, trim, parse;
on failure fall back to the first 150 characters. -/
def parseDescription (jp : String → Option Json) (t : Option String) : String × String :=
  match t with
  | none => ("No description available.", "无可用描述。")
  | some text =>
    let stripped := removeSub btick [btick, btick]
      (removeSub btick [btick, btick, 'j', 's', 'o', 'n'] text.data)
    match jp (String.mk (trimChars stripped)) with
    | some parsed => (jsFieldOrDots parsed "en", jsFieldOrDots parsed "cn")
    | none => (String.mk (text.data.take 150) ++ "...", "请查看图片。")

/-! ## The generation pipeline (part_004)

The environment fixes the outcome of every external call: the response text
of the brainstorm, deck-social and prompt-craft calls, the response parts of
the `i`-th image render (the value awaited from its `retryOperation` wrapper,
or its final rejection), and the response text of the `i`-th per-image social
copy call.  Only data that some claim observes is modelled; option fields
that merely feed prompt text (styles, strategies, lifestyle scene,
aspect-ratio config) are omitted from the embedding. -/

inductive PEvent where
  | callBrainstorm : PEvent
  | callSocialDeck : PEvent
  | callPromptCraft : PEvent
  | waited (ms : Nat) : PEvent
  | callRender (i : Nat) : PEvent
  | callSocialCopy (i : Nat) : PEvent
deriving DecidableEq, Repr

structure InlineData where
  data : String
  mimeType : String

/-- One part of a Gemini response candidate. -/
structure RespPart where
  inlineData : Option InlineData
  text : Option String

structure GenEnv where
  apiKey : Option String
  now : Nat
  brainstormText : Except JsError (Option String)
  socialDeckText : Except JsError (Option String)
  promptCraftText : Except JsError (Option String)
  renderResp : Nat → Except JsError (List RespPart)
  socialCopyText : Nat → Except JsError (Option String)

structure ProductInfo where
  name : String
  sellingPoints : String
  link : String

structure GenOptions where
  selectedAngles : List String
  selectedSocialPlatforms : List String
  generateSocialCopy : Bool
  imagesPerAngle : Option Nat

structure GeneratedImage where
  src : String
  label : String
  description : Option (String × String)

structure GeneratedPerspective where
  id : String
  label : String
  prompt : String
  veoPrompt : Option String
  mainImage : GeneratedImage
  socialCopy : Option (Option String × Option String)
  extendedFrames : Option (List GeneratedImage)

structure GeneratedData where
  socialPosts : List (String × String)
  perspectives : List GeneratedPerspective

/-- `getGeminiApiKey()` truthiness checked by `getAiClient` (part_004 6-12). -/
def apiKeyPresent (env : GenEnv) : Bool :=
  match env.apiKey with
  | some k => k != ""
  | none => false

def apiKeyErrorMsg : String := "请先在 ⚙️ 设置中配置 Gemini API Key"

/-- The deck-level social post assembly (part_004 lines 365-382): on any
throw the posts stay empty; otherwise each selected platform whose
(lower-cased) key is truthy in the parsed response is kept, in order. -/
def computeSocialPosts (jp : String → Option Json) (env : GenEnv) (opts : GenOptions) :
    List (String × String) :=
  match env.socialDeckText with
  | .error _ => []
  | .ok t =>
    match parseJSON jp (jsOrEmptyObj t) with
    | .error _ => []
    | .ok parsed =>
      opts.selectedSocialPlatforms.filterMap fun platform =>
        let key := strLower platform
        (truthyField parsed key).map fun v => (key, jsDisplay v)

structure ExpandedAngle where
  angle : String
  id : String
  index : Nat

/-- Lines 384-385: `expandedAnglesWithIds`, one entry per selected angle per
variation index (`imagesPerAngle` defaults to 1 when undefined). -/
def expandedAnglesOf (opts : GenOptions) : List ExpandedAngle :=
  let ipa := opts.imagesPerAngle.getD 1
  opts.selectedAngles.flatMap fun angleId =>
    (List.range ipa).map fun i =>
      { angle := if ipa > 1 then angleId ++ " (Var " ++ toString (i + 1) ++ ")" else angleId,
        id := angleId, index := i + 1 }

structure CreativePromptResult where
  imagePrompt : String
  veoPrompt : String
  originalAngleId : String
  variationIndex : Nat

/-- `expandedAnglesWithIds[i]?.id || 'unknown'`. -/
def jsIdOr (o : Option ExpandedAngle) : String :=
  match o with
  | some a => if a.id = "" then "unknown" else a.id
  | none => "unknown"

/-- `expandedAnglesWithIds[i]?.index || 1`. -/
def jsIdxOr (o : Option ExpandedAngle) : Nat :=
  match o with
  | some a => if a.index = 0 then 1 else a.index
  | none => 1

/-- A field of a spread element, `undefined` rendered as JS would when
interpolated. -/
def jsFieldPrompt (j : Json) (k : String) : String :=
  match jsLookupField j k with
  | some v => jsDisplay v
  | none => "undefined"

/-- Lines 315-316: the array the model answered with — the value itself if
it is an array, else its truthy `perspectives` or `angles` field (`none`
when that field is truthy but not an array, making `Array.isArray` fail). -/
def perspectivesArrayOf (parsed : Json) : Option (List Json) :=
  match parsed with
  | .arr xs => some xs
  | _ =>
    match truthyField parsed "perspectives" with
    | some v => match v with | .arr xs => some xs | _ => none
    | none =>
      match truthyField parsed "angles" with
      | some v => match v with | .arr xs => some xs | _ => none
      | none => some []

/-- `generateCreativeImagePrompts` (part_004 lines 235-327) reduced to its
observable behaviour: `.error ()` collects every throw (rejected call,
parse failure, non-array or empty perspectives array); on success one
result per element of the model's array, annotated positionally. -/
def generateCreativeImagePrompts (jp : String → Option Json)
    (craftText : Except JsError (Option String)) (expanded : List ExpandedAngle) :
    Except Unit (List CreativePromptResult) :=
  match craftText with
  | .error _ => .error ()
  | .ok t =>
    match parseJSON jp (jsOrEmptyObj t) with
    | .error _ => .error ()
    | .ok parsed =>
      match perspectivesArrayOf parsed with
      | none => .error ()
      | some arr =>
        if arr.isEmpty then .error ()
        else .ok (arr.enum.map fun ip =>
          { imagePrompt := jsFieldPrompt ip.2 "imagePrompt",
            veoPrompt := jsFieldPrompt ip.2 "veoPrompt",
            originalAngleId := jsIdOr expanded[ip.1]?,
            variationIndex := jsIdxOr expanded[ip.1]? })

/-- `productInfo.name || 'product'`. -/
def jsOrProductName (n : String) : String := if n = "" then "product" else n

/-- Lines 386-397: the creative perspectives, falling back to one synthetic
prompt per expanded angle when the prompt-craft call throws. -/
def creativePerspectivesOf (jp : String → Option Json) (env : GenEnv)
    (opts : GenOptions) (info : ProductInfo) : List CreativePromptResult :=
  let expanded := expandedAnglesOf opts
  match generateCreativeImagePrompts jp env.promptCraftText expanded with
  | .ok l => l
  | .error _ =>
    expanded.map fun item =>
      { imagePrompt := "Pro shot of " ++ jsOrProductName info.name ++ ", " ++ item.angle ++ ".",
        veoPrompt := "Cinematic video of " ++ jsOrProductName info.name ++ ", " ++ item.angle ++ ".",
        originalAngleId := item.id, variationIndex := item.index }

/-- `perspectiveLabelMap` (part_004 lines 128-159). -/
def perspectiveLabelMap : List (String × String) :=
  [("extremeWideShot", "Extreme Wide Shot"), ("mediumCloseUp", "Medium Close-up"),
   ("pov", "POV"), ("birdsEyeView", "Bird's Eye View"), ("wormsEyeView", "Worm's Eye View"),
   ("trackingShot", "Tracking Shot"), ("closeUp", "Close-up"), ("nearView", "Near View"),
   ("midView", "Mid View"), ("farView", "Far View"), ("heroShot", "Hero Shot"),
   ("knolling", "Knolling"), ("dutchAngle", "Dutch Angle"), ("overShoulder", "Over-the-Shoulder"),
   ("frontView", "Front View"), ("topDown", "Top-down"), ("lowAngle", "Low-Angle Shot"),
   ("sideView", "Side View"), ("upperBody", "Upper Body"), ("lowerBody", "Lower Body"),
   ("product_frontView", "Product: Front View"),
   ("product_threeQuarterLeft", "Product: Three-Quarter Left"),
   ("product_threeQuarterRight", "Product: Three-Quarter Right"),
   ("product_profileLeft", "Product: Profile Left"),
   ("product_profileRight", "Product: Profile Right"),
   ("product_backView", "Product: Back View"), ("product_topDown", "Product: Top-Down"),
   ("product_bottomUp", "Product: Bottom-Up"), ("product_45degreeAbove", "Product: 45° Above"),
   ("product_macroShot", "Product: Macro Shot")]

/-- Line 424: label from the angle id (custom angles drop their prefix). -/
def labelFor (originalAngleId : String) : String :=
  if strStartsWith originalAngleId "custom:" then String.mk (originalAngleId.data.drop 7)
  else (List.lookup originalAngleId perspectiveLabelMap).getD originalAngleId

/-- One perspective task of the render stage (part_004 lines 402-430): the
render call, extraction of the image and text parts, perspective assembly,
and the guarded per-image social copy call whose failure is swallowed. -/
def renderTask (jp : String → Option Json) (env : GenEnv) (opts : GenOptions)
    (pd : CreativePromptResult) (i : Nat) :
    Except JsError (Option GeneratedPerspective) × List PEvent :=
  match env.renderResp i with
  | .error e => (.error e, [PEvent.callRender i])
  | .ok parts =>
    match parts.find? (fun p => p.inlineData.isSome) with
    | none => (.ok none, [PEvent.callRender i])
    | some ip =>
      match ip.inlineData with
      | none => (.ok none, [PEvent.callRender i])
      | some idata =>
        let textPart := parts.find? (fun p => match p.text with | some s => s != "" | none => false)
        let src := "data:" ++ idata.mimeType ++ ";base64," ++ idata.data
        let descr := parseDescription jp (textPart.bind (·.text))
        let ipa := opts.imagesPerAngle.getD 1
        let label0 := labelFor pd.originalAngleId
        let label := if ipa > 1 then label0 ++ " #" ++ toString pd.variationIndex else label0
        let uid := pd.originalAngleId ++ "-" ++ toString pd.variationIndex ++ "-" ++ toString env.now
        let base : GeneratedPerspective :=
          { id := uid, label := label, prompt := pd.imagePrompt, veoPrompt := some pd.veoPrompt,
            mainImage := { src := src, label := label, description := some descr },
            socialCopy := none, extendedFrames := none }
        if opts.generateSocialCopy then
          let sc : Option (Option String × Option String) :=
            match env.socialCopyText i with
            | .error _ => none
            | .ok t =>
              match parseJSON jp (jsOrEmptyObj t) with
              | .error _ => none
              | .ok j => some ((jsLookupField j "english_post").map jsDisplay,
                  (jsLookupField j "chinese_post").map jsDisplay)
          (.ok (some { base with socialCopy := sc }),
            [PEvent.callRender i, PEvent.callSocialCopy i])
        else (.ok (some base), [PEvent.callRender i])

/-- The task list handed to `sequentialWithDelay` (line 402/431), one task
per creative perspective, indexed from `s`. -/
def renderTasks (jp : String → Option Json) (env : GenEnv) (opts : GenOptions) :
    List CreativePromptResult → Nat →
      List (Except JsError (Option GeneratedPerspective) × List PEvent)
  | [], _ => []
  | pd :: rest, s => renderTask jp env opts pd s :: renderTasks jp env opts rest (s + 1)

/-- `generateContentFromImage` (part_004 lines 345-435). -/
def generateContentFromImage (jp : String → Option Json) (env : GenEnv)
    (opts : GenOptions) (info : ProductInfo) : Except String GeneratedData × List PEvent :=
  if apiKeyPresent env then
    let sp := computeSocialPosts jp env opts
    let pds := creativePerspectivesOf jp env opts info
    let seq := sequentialWithDelay PEvent.waited 1500 (renderTasks jp env opts pds 0)
    let tr := PEvent.callSocialDeck :: PEvent.callPromptCraft :: seq.2
    match seq.1 with
    | .error e => (.error ("Image generation failed: " ++ jsMessageOf e), tr)
    | .ok lst => (.ok { socialPosts := sp, perspectives := lst.filterMap id }, tr)
  else (.error apiKeyErrorMsg, [])

/-- Elements of the `angles` array (typed `string[]` in the source). -/
def jsonStringList (v : Json) : List String :=
  match v with
  | .arr xs => xs.map jsDisplay
  | _ => []

/-- `generateBrainstormAngles` (part_004 lines 329-343). -/
def generateBrainstormAngles (jp : String → Option Json) (env : GenEnv) :
    Except String (List String) × List PEvent :=
  if apiKeyPresent env then
    match env.brainstormText with
    | .error e => (.error (jsMessageOf e), [PEvent.callBrainstorm])
    | .ok t =>
      match parseJSON jp (jsOrEmptyObj t) with
      | .error m => (.error m, [PEvent.callBrainstorm])
      | .ok parsed =>
        match truthyField parsed "angles" with
        | some v => (.ok (jsonStringList v), [PEvent.callBrainstorm])
        | none => (.ok [], [PEvent.callBrainstorm])
  else (.error apiKeyErrorMsg, [])

/-- The full multi-stage pipeline as composed by the app (part_007): the
brainstorm call feeds the custom angles (`custom:` + trimmed idea) that
`handleGenerate` appends to the selected angles before calling
`generateContentFromImage`. -/
def runPipeline (jp : String → Option Json) (env : GenEnv) (opts : GenOptions)
    (info : ProductInfo) : Except String GeneratedData × List PEvent :=
  match generateBrainstormAngles jp env with
  | (.error m, tr) => (.error m, tr)
  | (.ok angles, tr) =>
    let opts' := { opts with
      selectedAngles := opts.selectedAngles ++ angles.map (fun a => "custom:" ++ strTrim a) }
    let r := generateContentFromImage jp env opts' info
    (r.1, tr ++ r.2)

/-- Is this event an image-render request? -/
def isRenderEvent : PEvent → Bool
  | .callRender _ => true
  | _ => false

/-! ## `generateVideo` (falService, part_006)

The environment fixes the submit response and the result of every poll of
the status URL. -/

inductive VEvent where
  | waited (ms : Nat) : VEvent
  | statusQuery (i : Nat) : VEvent
deriving DecidableEq, Repr

/-- Outcome of one status poll: an HTTP failure, or a JSON body with a
`status`, optional `logs` messages and `output?.[0]?.url`. -/
inductive PollStep where
  | httpFail (code : Nat) : PollStep
  | respOk (status : String) (logMsgs : Option (List String)) (outputUrl : Option String) : PollStep

structure VideoEnv where
  submitStatus : Nat
  submitDetail : Option String
  submitUrl : Option String
  poll : Nat → PollStep

/-- The hard-coded key of part_006 line 4 (never empty, so the
`!FAL_API_KEY` guard never fires). -/
def falApiKeyConst : String :=
  "71d25090-8cf6-46ab-9610-02ed341c434f:1c0f856cceba0ae404534335d3c84c9f"

def videoTimeoutMsg : String :=
  "Video generation timed out after 5 minutes. The service may be under heavy load. Please try again later."

/-- `o || d` for strings. -/
def jsOrDefaultStr (o : Option String) (d : String) : String :=
  match o with
  | some s => if s = "" then d else s
  | none => d

/-- `result.logs?.map(l => l.message).join('\n') || 'Unknown model error'`. -/
def joinedLogsOr (logMsgs : Option (List String)) : String :=
  match logMsgs with
  | none => "Unknown model error"
  | some l =>
    let j := String.intercalate "\n" l
    if j = "" then "Unknown model error" else j

/-- The polling `while` loop (part_006 lines 58-90), fueled by the remaining
attempts (`maxAttempts = 60`), including the post-loop timeout check and
video-URL extraction. -/
def pollLoop (poll : Nat → PollStep) : Nat → Nat → Except String String × List VEvent
  | 0, _ => (.error videoTimeoutMsg, [])
  | fuel + 1, i =>
    let ev := [VEvent.waited 5000, VEvent.statusQuery i]
    match poll i with
    | .httpFail c => (.error ("Failed to get status from fal.ai. Status: " ++ toString c), ev)
    | .respOk st logMsgs out =>
      if st = "COMPLETED" then
        match out with
        | some u =>
          if u = "" then (.error "Could not find video URL in fal.ai response.", ev)
          else (.ok u, ev)
        | none => (.error "Could not find video URL in fal.ai response.", ev)
      else if st = "ERROR" then
        (.error ("Video generation failed. The model reported an error: " ++ joinedLogsOr logMsgs), ev)
      else
        let next := pollLoop poll fuel (i + 1)
        (next.1, ev ++ next.2)

/-- `generateVideo` (part_006 lines 7-102). -/
def generateVideo (env : VideoEnv) : Except String String × List VEvent :=
  if falApiKeyConst = "" then
    (.error "FAL_API_KEY is not configured in the application source.", [])
  else if env.submitStatus ≠ 200 then
    (.error ("Failed to submit video generation request. The server responded with: " ++
      jsOrDefaultStr env.submitDetail "Request failed"), [])
  else
    match env.submitUrl with
    | some u =>
      if u = "" then (.error "Fal.ai did not return a status URL.", [])
      else pollLoop env.poll 60 0
    | none => (.error "Fal.ai did not return a status URL.", [])

/-- Is this event a status query? -/
def isQueryEvent : VEvent → Bool
  | .statusQuery _ => true
  | _ => false

/-! ## `saveToDrive` (googleDriveService, part_003 lines 188-267)

The environment fixes the outcomes of client initialization, auth, folder
creation and of the `k`-th `uploadFile` call (in call order). -/

inductive DriveEvent where
  | statusSet (msg : String) : DriveEvent
  | uploadCall (filename : String) (content : String) : DriveEvent
deriving DecidableEq, Repr

structure DriveEnv where
  initResult : Except String Unit
  authResult : Except String Unit
  rootFolder : Except String String
  campaignFolder : Except String String
  uploadResult : Nat → Except String Unit

def isAlnumChar (c : Char) : Bool := c.isAlpha || c.isDigit

def isMimeTailChar (c : Char) : Bool := isAlnumChar c || c = '-' || c = '.' || c = '+'

/-- Try the regex `data:([a-zA-Z0-9]+\/[a-zA-Z0-9-.+]+).*,.*` anchored at
this position. -/
def tryMimeAt (l : List Char) : Option String :=
  if listStartsWith l ['d', 'a', 't', 'a', ':'] then
    let rest := l.drop 5
    let p1 := rest.takeWhile isAlnumChar
    match rest.drop p1.length with
    | '/' :: rest3 =>
      let p2 := rest3.takeWhile isMimeTailChar
      if p1.isEmpty || p2.isEmpty then none
      else if (rest3.drop p2.length).contains ',' then some (String.mk (p1 ++ '/' :: p2))
      else none
    | _ => none
  else none

/-- Search for the mime pattern anywhere in the source string. -/
def dataUrlMime : List Char → Option String
  | [] => none
  | c :: cs =>
    match tryMimeAt (c :: cs) with
    | some m => some m
    | none => dataUrlMime cs

/-- Line 212: the data-URL mime type, defaulting to `image/png`. -/
def extractMime (src : String) : String := (dataUrlMime src.data).getD "image/png"

/-- `mimeType.split('/')[1]`. -/
def extensionOf (mime : String) : String :=
  String.mk (((mime.data.dropWhile (· ≠ '/')).drop 1).takeWhile (· ≠ '/'))

/-- `src.split(',')[1]`: the base64 payload handed to `base64ToBlob`. -/
def dataAfterComma (src : String) : String :=
  String.mk (((src.data.dropWhile (· ≠ ',')).drop 1).takeWhile (· ≠ ','))

/-- `replace(/\s+/g, '-')`: each maximal whitespace run becomes one dash. -/
def squashGo : List Char → Bool → List Char
  | [], _ => []
  | c :: cs, inRun =>
    if isWsChar c then
      (if inRun then squashGo cs true else '-' :: squashGo cs true)
    else c :: squashGo cs false

def squashWsDash (l : List Char) : List Char := squashGo l false

/-- The `[a-z0-9\s-]/i` character class kept by the prompt-name cleanup. -/
def keepPromptChar (c : Char) : Bool := isAlnumChar c || isWsChar c || c = '-'

/-- Lines 220-225: clean, trim, dash-join, truncate to 60, lower-case. -/
def cleanPromptName (p : String) : String :=
  strLower (String.mk ((squashWsDash (trimChars (p.data.filter keepPromptChar))).take 60))

/-- Lines 211-228: the upload filename of one image. -/
def filenameFor (image : GeneratedImage) (prompt label : String) : String :=
  let mime := extractMime image.src
  let ext := extensionOf mime
  let nameBase :=
    if prompt.data.length > 5 then cleanPromptName prompt
    else String.mk (squashWsDash label.data)
  nameBase ++ "." ++ ext

/-- Lines 201-206: every perspective's main image followed by its extended
frames, with the naming metadata. -/
def imagesWithMetadata (data : GeneratedData) : List (GeneratedImage × String × String) :=
  data.perspectives.flatMap fun p =>
    (p.mainImage, p.prompt, p.label) ::
      (p.extendedFrames.getD []).map (fun f => (f, p.prompt, p.label ++ "-" ++ f.label))

/-- Lines 239-250: the text block of one perspective. -/
def perspectiveSection (idx : Nat) (p : GeneratedPerspective) : String :=
  "Perspective " ++ toString (idx + 1) ++ ": " ++ p.label ++ "\n" ++
    "Image Prompt: " ++ p.prompt ++ "\n" ++
    (match p.veoPrompt with
     | some v => if v = "" then "" else "Veo Video Prompt: " ++ v ++ "\n"
     | none => "") ++
    (match p.mainImage.description with
     | some d =>
       "Description (EN): " ++ d.1 ++ "\n" ++ "Description (CN): " ++ d.2 ++ "\n"
     | none => "") ++ "\n"

/-- Lines 252-256: the text block of one social post. -/
def socialSection (platform post : String) : String :=
  "====================\n" ++ strUpper platform ++ " POST\n====================\n\n" ++
    post ++ "\n\n\n"

def concatAll : List String → String
  | [] => ""
  | s :: rest => s ++ concatAll rest

/-- Lines 234-256: the content of `social-media-content.txt`. -/
def textContentOf (data : GeneratedData) (campaign : String) : String :=
  "AI Generated Content for: " ++ campaign ++ "\n\n" ++
    "====================\nPERSPECTIVE PROMPTS & VISUAL DIRECTION\n====================\n\n" ++
    concatAll (data.perspectives.enum.map fun ip => perspectiveSection ip.1 ip.2) ++
    concatAll (data.socialPosts.map fun pp => socialSection pp.1 pp.2)

/-- The image upload loop (lines 208-230); `k` counts uploads performed so
far, a failing upload rethrows immediately. -/
def uploadImagesLoop (env : DriveEnv) (total : Nat) :
    List (GeneratedImage × String × String) → Nat → Except String Unit × List DriveEvent
  | [], _ => (.ok (), [])
  | (img, pr, lb) :: rest, k =>
    let fn := filenameFor img pr lb
    let ev := [DriveEvent.statusSet
        ("Uploading image " ++ toString (k + 1) ++ "/" ++ toString total ++ ": " ++ lb ++ "..."),
      DriveEvent.uploadCall fn (dataAfterComma img.src)]
    match env.uploadResult k with
    | .error m =>
      (.error ("Failed to upload " ++ fn ++ " to Google Drive. The server responded with: " ++ m), ev)
    | .ok _ =>
      let next := uploadImagesLoop env total rest (k + 1)
      (next.1, ev ++ next.2)

/-- The body of `saveToDrive`'s `try` block (lines 189-261). -/
def saveToDriveCore (data : GeneratedData) (campaign : String) (env : DriveEnv) :
    Except String Unit × List DriveEvent :=
  let t0 := [DriveEvent.statusSet "Initializing Google services..."]
  match env.initResult with
  | .error m => (.error m, t0)
  | .ok _ =>
    let t1 := t0 ++ [DriveEvent.statusSet "Authenticating with Google Drive..."]
    match env.authResult with
    | .error m => (.error m, t1)
    | .ok _ =>
      let t2 := t1 ++ [DriveEvent.statusSet "Creating folder in Google Drive..."]
      match env.rootFolder with
      | .error m => (.error m, t2)
      | .ok _ =>
        match env.campaignFolder with
        | .error m => (.error m, t2)
        | .ok _ =>
          let imgs := imagesWithMetadata data
          let up := uploadImagesLoop env imgs.length imgs 0
          match up.1 with
          | .error m => (.error m, t2 ++ up.2)
          | .ok _ =>
            let t3 := t2 ++ up.2 ++ [DriveEvent.statusSet "Uploading text content...",
              DriveEvent.uploadCall "social-media-content.txt" (textContentOf data campaign)]
            match env.uploadResult imgs.length with
            | .error m =>
              (.error ("Failed to upload social-media-content.txt to Google Drive. The server responded with: " ++ m), t3)
            | .ok _ => (.ok (), t3 ++ [DriveEvent.statusSet "Successfully saved to Google Drive!"])

/-- `saveToDrive` (lines 188-267): the `catch` sets the `Error:` status and
rethrows the message. -/
def saveToDrive (data : GeneratedData) (campaign : String) (env : DriveEnv) :
    Except String Unit × List DriveEvent :=
  match saveToDriveCore data campaign env with
  | (.ok _, tr) => (.ok (), tr)
  | (.error m, tr) => (.error m, tr ++ [DriveEvent.statusSet ("Error: " ++ m)])

/-- Is this event an upload call? -/
def isUploadEvent : DriveEvent → Bool
  | .uploadCall _ _ => true
  | _ => false



/-- `needle` occurs contiguously in `hay`. -/
def occursIn (needle hay : String) : Prop := needle.data <:+: hay.data

/-- Project an upload call out of a trace event. -/
def uploadsOf : DriveEvent → Option (String × String)
  | .uploadCall fn c => some (fn, c)
  | _ => none

/-! ## Concrete environments and inputs used by witnesses and
counterexamples -/

/-- A successful render response part carrying an image and a caption. -/
def witRespPart : RespPart :=
  { inlineData := some { data := "IMG", mimeType := "image/png" },
    text := some "\x7b\"en\": \"desc\", \"cn\": \"描述\"\x7d" }

/-- A render response part carrying an image but no caption. -/
def witRespPartNoText : RespPart :=
  { inlineData := some { data := "IMG", mimeType := "image/png" }, text := none }

/-- An environment in which every external call succeeds; the prompt-craft
call answers two perspectives. -/
def witEnvOk : GenEnv :=
  { apiKey := some "k", now := 7,
    brainstormText := Except.ok (some "\x7b\"angles\": [\"glass on marble\"]\x7d"),
    socialDeckText := Except.ok (some "\x7b\"instagram\": \"Post!\"\x7d"),
    promptCraftText := Except.ok (some "\x7b\"perspectives\": [\x7b\"imagePrompt\": \"p0\", \"veoPrompt\": \"v0\"\x7d, \x7b\"imagePrompt\": \"p1\", \"veoPrompt\": \"v1\"\x7d]\x7d"),
    renderResp := fun _ => Except.ok [witRespPart],
    socialCopyText := fun _ =>
      Except.ok (some "\x7b\"english_post\": \"hi\", \"chinese_post\": \"嗨\"\x7d") }

/-- An environment where the deck social call, the prompt-craft call and
the per-image social copy calls all reject, while renders succeed. -/
def witEnvFail : GenEnv :=
  { apiKey := some "k", now := 7,
    brainstormText := Except.ok (some "\x7b\"angles\": []\x7d"),
    socialDeckText := Except.error { status := some 500, code := none, message := some "boom" },
    promptCraftText := Except.error { status := some 429, code := none, message := some "quota" },
    renderResp := fun _ => Except.ok [witRespPartNoText],
    socialCopyText := fun _ => Except.error { status := none, code := none, message := none } }

/-- Like `witEnvOk` but every render call rejects. -/
def witEnvRenderFail : GenEnv :=
  { witEnvOk with
    renderResp := fun _ =>
      Except.error { status := some 500, code := none, message := some "no capacity" } }

/-- Like `witEnvOk` but the prompt-craft call answers only a single
perspective. -/
def witEnvOne : GenEnv :=
  { witEnvOk with
    promptCraftText := Except.ok
      (some "\x7b\"perspectives\": [\x7b\"imagePrompt\": \"p0\", \"veoPrompt\": \"v0\"\x7d]\x7d") }

/-- Two selected angles, one image per angle, social copy enabled. -/
def witOpts : GenOptions :=
  { selectedAngles := ["heroShot", "closeUp"], selectedSocialPlatforms := ["Instagram"],
    generateSocialCopy := true, imagesPerAngle := some 1 }

def witInfo : ProductInfo := { name := "Lamp", sellingPoints := "", link := "" }

/-- Video environment: submit succeeds, the first poll is COMPLETED with a
URL. -/
def witVideoDone : VideoEnv :=
  { submitStatus := 200, submitDetail := none, submitUrl := some "https://queue/status",
    poll := fun _ => PollStep.respOk "COMPLETED" none (some "https://cdn/video.mp4") }

/-- Video environment: the first poll is COMPLETED but carries no output
URL. -/
def witVideoNoUrl : VideoEnv :=
  { witVideoDone with poll := fun _ => PollStep.respOk "COMPLETED" none none }

/-- Video environment: the second poll reports ERROR. -/
def witVideoErr : VideoEnv :=
  { witVideoDone with
    poll := fun i => if i = 0 then PollStep.respOk "IN_QUEUE" none none
      else PollStep.respOk "ERROR" (some ["bad frame"]) none }

/-- Video environment: every poll stays IN_PROGRESS. -/
def witVideoStuck : VideoEnv :=
  { witVideoDone with poll := fun _ => PollStep.respOk "IN_PROGRESS" none none }

/-- A generated deck with two perspectives, one having an extended frame. -/
def witMainImage : GeneratedImage :=
  { src := "data:image/png;base64,AAA", label := "Hero Shot", description := some ("desc", "描述") }

def witFrame : GeneratedImage :=
  { src := "data:image/png;base64,BBB", label := "Zoom Out", description := none }

def witSecondImage : GeneratedImage :=
  { src := "data:image/png;base64,CCC", label := "Close-up", description := none }

def witData : GeneratedData :=
  { socialPosts := [("instagram", "Great lamp!")],
    perspectives :=
      [{ id := "heroShot-1-7", label := "Hero Shot", prompt := "golden hour lamp shot",
         veoPrompt := some "pan across lamp", mainImage := witMainImage,
         socialCopy := none, extendedFrames := some [witFrame] },
       { id := "closeUp-1-7", label := "Close-up", prompt := "tiny", veoPrompt := none,
         mainImage := witSecondImage, socialCopy := none, extendedFrames := none }] }

/-- A Drive environment where everything succeeds. -/
def witDriveOk : DriveEnv :=
  { initResult := Except.ok (), authResult := Except.ok (),
    rootFolder := Except.ok "root", campaignFolder := Except.ok "campaign",
    uploadResult := fun _ => Except.ok () }

/-- A Drive environment where the second upload call fails. -/
def witDriveFail : DriveEnv :=
  { witDriveOk with uploadResult := fun k => if k = 1 then Except.error "disk full" else Except.ok () }

/-! # Theorems -/

/-! ## Retry helper lemmas -/

/-- The final outcome of `retryOperation` is the outcome of the last
invocation performed (attempt number = number of waits). -/
theorem retry_final_eq (op : Nat → Except JsError α) (retries delay attempt : Nat) :
    (retryOperation op retries delay attempt).1 =
      op (attempt + (retryOperation op retries delay attempt).2.length) := by
  induction retries generalizing delay attempt with
  | zero =>
    unfold retryOperation
    cases h : op attempt <;> simp [h]
  | succ r ih =>
    unfold retryOperation
    cases h : op attempt with
    | ok v => simp [h]
    | error e =>
      by_cases hc : (isOverloaded e || isRateLimited e) = true
      · simpa [h, hc, Nat.add_comm, Nat.add_assoc, Nat.add_left_comm] using
          ih (delay * 2) (attempt + 1)
      · simp [h, hc]

/-- Each wait performed corresponds to a retryable error, with the base
delay doubled at each successive retry. -/
theorem retry_waits_get (op : Nat → Except JsError α) (retries : Nat) :
    ∀ delay attempt k, k < (retryOperation op retries delay attempt).2.length →
      ∃ e, op (attempt + k) = .error e ∧ (isOverloaded e || isRateLimited e) = true ∧
        (retryOperation op retries delay attempt).2[k]? =
          some (if isRateLimited e then max (delay * 2 ^ k) 3000 else delay * 2 ^ k) := by
  induction retries with
  | zero =>
    intro delay attempt k hk
    unfold retryOperation at hk ⊢
    cases h : op attempt <;> simp [h] at hk
  | succ r ih =>
    intro delay attempt k hk
    unfold retryOperation at hk ⊢
    cases h : op attempt with
    | ok v => simp [h] at hk
    | error e =>
      by_cases hc : (isOverloaded e || isRateLimited e) = true
      · simp only [h, hc, if_true] at hk ⊢
        cases k with
        | zero => exact ⟨e, by simpa using h, hc, by simp⟩
        | succ k' =>
          simp only [List.length_cons, Nat.succ_lt_succ_iff] at hk
          obtain ⟨e', he', hc', hw'⟩ := ih (delay * 2) (attempt + 1) k' hk
          refine ⟨e', by simpa [Nat.add_comm, Nat.add_assoc, Nat.add_left_comm] using he', hc', ?_⟩
          simp only [List.getElem?_cons_succ]
          rw [hw']
          congr 1
          congr 1 <;> ring_nf
      · simp [h, hc] at hk

/-- The number of waits never exceeds `retries`. -/
theorem retry_waits_length_le (op : Nat → Except JsError α) (retries : Nat) :
    ∀ delay attempt, (retryOperation op retries delay attempt).2.length ≤ retries := by
  induction retries with
  | zero =>
    intro delay attempt
    unfold retryOperation
    cases h : op attempt <;> simp
  | succ r ih =>
    intro delay attempt
    unfold retryOperation
    cases h : op attempt with
    | ok v => simp
    | error e =>
      by_cases hc : (isOverloaded e || isRateLimited e) = true
      · simpa [hc] using ih (delay * 2) (attempt + 1)
      · simp [hc]

/-- C2: a rate-limited (429) or overloaded (503) error with retries left
causes a wait followed by a retry; the base delay doubles on every retry
(`delay * 2 ^ k` before the `k`-th retry), a rate-limited wait is at least
3000 ms, and the final (e.g. successful) outcome is returned unchanged. -/
theorem retryOperation_backoff_spec (op : Nat → Except JsError α) (retries delay attempt : Nat) :
    (retryOperation op retries delay attempt).1 =
      op (attempt + (retryOperation op retries delay attempt).2.length) ∧
    (∀ k, k < (retryOperation op retries delay attempt).2.length →
      ∃ e, op (attempt + k) = .error e ∧ (isOverloaded e || isRateLimited e) = true ∧
        (retryOperation op retries delay attempt).2[k]? =
          some (if isRateLimited e then max (delay * 2 ^ k) 3000 else delay * 2 ^ k) ∧
        (isRateLimited e = true → 3000 ≤ max (delay * 2 ^ k) 3000)) := by
  refine ⟨retry_final_eq op retries delay attempt, fun k hk => ?_⟩
  obtain ⟨e, he, hc, hw⟩ := retry_waits_get op retries delay attempt k hk
  exact ⟨e, he, hc, hw, fun _ => le_max_right _ _⟩

/-- Witness for C2: one 429 failure then success, with default arguments;
the single wait is `max 2000 3000 = 3000` and the success value is
returned unchanged. -/
theorem retryOperation_backoff_spec_witness :
    ((retryOperation (fun n => if n = 0 then Except.error (JsError.mk (some 429) none none)
        else Except.ok 7) 4 2000 0).1 =
      (fun n => if n = 0 then Except.error (JsError.mk (some 429) none none)
        else Except.ok (7 : Nat)) (0 + (retryOperation (fun n => if n = 0 then
          Except.error (JsError.mk (some 429) none none) else Except.ok 7) 4 2000 0).2.length) ∧
      ∃ e, (fun n => if n = 0 then Except.error (JsError.mk (some 429) none none)
          else Except.ok (7 : Nat)) (0 + 0) = .error e ∧
        (isOverloaded e || isRateLimited e) = true ∧
        (retryOperation (fun n => if n = 0 then Except.error (JsError.mk (some 429) none none)
          else Except.ok 7) 4 2000 0).2[0]? =
          some (if isRateLimited e then max (2000 * 2 ^ 0) 3000 else 2000 * 2 ^ 0) ∧
        (isRateLimited e = true → 3000 ≤ max (2000 * 2 ^ 0) 3000)) :=
  ⟨(retryOperation_backoff_spec (fun n => if n = 0 then
      Except.error (JsError.mk (some 429) none none) else Except.ok 7) 4 2000 0).1,
    (retryOperation_backoff_spec (fun n => if n = 0 then
      Except.error (JsError.mk (some 429) none none) else Except.ok 7) 4 2000 0).2 0 (by decide)⟩

/-- C6: the retry loop always terminates — at most `retries + 1` invocations
(5 with the source's defaults `retries = 4`), and an error classified as
neither rate-limited nor overloaded is rethrown at once, with no wait and
no further attempts. -/
theorem retryOperation_attempt_bound (op : Nat → Except JsError α) (retries delay attempt : Nat) :
    (retryOperation op retries delay attempt).2.length + 1 ≤ retries + 1 ∧
    (retryOperation op 4 2000 attempt).2.length + 1 ≤ 5 ∧
    (∀ e, op attempt = .error e → isOverloaded e = false → isRateLimited e = false →
      retryOperation op retries delay attempt = (.error e, [])) := by
  refine ⟨Nat.succ_le_succ (retry_waits_length_le op retries delay attempt),
    Nat.succ_le_succ (retry_waits_length_le op 4 2000 attempt), fun e he ho hr => ?_⟩
  unfold retryOperation
  rw [he]
  cases retries <;> simp [ho, hr]

/-- Witness for C6: a plain 400 error is rethrown immediately with no
waits. -/
theorem retryOperation_attempt_bound_witness :
    retryOperation (fun _ => (Except.error (JsError.mk (some 400) none (some "bad request")) :
        Except JsError Nat)) 4 2000 0 =
      (.error (JsError.mk (some 400) none (some "bad request")), []) :=
  (retryOperation_attempt_bound (fun _ => Except.error (JsError.mk (some 400) none
    (some "bad request"))) 4 2000 0).2.2 (JsError.mk (some 400) none (some "bad request"))
    rfl (by decide) (by decide)

/-! ## Closest-aspect-ratio lemmas -/

/-- Transitivity of strict comparison against the running minimum. -/
theorem mltOpt_trans {d m : ℚ} {o : Option ℚ} (h1 : mltOpt d (some m) = true)
    (h2 : mltOpt m o = true) : mltOpt d o = true := by
  cases o with
  | none => rfl
  | some x =>
    simp only [mltOpt, decide_eq_true_eq] at h1 h2 ⊢
    exact h1.trans h2

/-- Invariant of the `for (const std of standards)` loop: the running
minimum only decreases, ends below every processed difference, and the
result is the start or corresponds to some processed entry. -/
theorem closestFold_spec (r : ℚ) (l : List (String × ℚ)) (acc : String × Option ℚ) :
    (∀ d, mltOpt d (l.foldl (closestStep r) acc).2 = true → mltOpt d acc.2 = true) ∧
    (∀ p ∈ l, mltOpt |r - p.2| (l.foldl (closestStep r) acc).2 = false) ∧
    (l.foldl (closestStep r) acc = acc ∨
      ∃ p ∈ l, l.foldl (closestStep r) acc = (p.1, some |r - p.2|)) := by
  induction l generalizing acc with
  | nil => simp
  | cons q t ih =>
    obtain ⟨ih1, ih2, ih3⟩ := ih (closestStep r acc q)
    rw [List.foldl_cons]
    refine ⟨?_, ?_, ?_⟩
    · intro d hd
      have hstep := ih1 d hd
      unfold closestStep at hstep
      by_cases hc : mltOpt |r - q.2| acc.2 = true
      · rw [if_pos hc] at hstep
        exact mltOpt_trans hstep hc
      · rwa [if_neg hc] at hstep
    · intro p hp
      rcases List.mem_cons.mp hp with hq | hp'
      · subst hq
        have hstep : mltOpt |r - p.2| (closestStep r acc p).2 = false := by
          unfold closestStep
          by_cases hc : mltOpt |r - p.2| acc.2 = true
          · rw [if_pos hc]
            simp [mltOpt]
          · rw [if_neg hc]
            exact Bool.not_eq_true _ ▸ (Bool.eq_false_iff.mpr hc)
        by_contra hcon
        rw [Bool.not_eq_false] at hcon
        rw [ih1 _ hcon] at hstep
        cases hstep
      · exact ih2 p hp'
    · rcases ih3 with h | ⟨p, hp, hres⟩
      · by_cases hc : mltOpt |r - q.2| acc.2 = true
        · have hs : closestStep r acc q = (q.1, some |r - q.2|) := by
            unfold closestStep
            rw [if_pos hc]
          rw [hs] at h ⊢
          exact Or.inr ⟨q, List.mem_cons_self q t, h⟩
        · have hs : closestStep r acc q = acc := by
            unfold closestStep
            rw [if_neg hc]
          rw [hs] at h ⊢
          exact Or.inl h
      · exact Or.inr ⟨p, List.mem_cons_of_mem q hp, hres⟩

/-- C10: the two copies of `calculateClosestAspectRatio` (current service
and previous version) compute the same function; a non-`custom` ratio is
returned unchanged, missing or zero dimensions give `1:1`, and otherwise
the result is the standard ratio minimizing the distance to
`width / height`. -/
theorem calculateClosestAspectRatio_copies_agree :
    (∀ a dims, calculateClosestAspectRatio a dims = calculateClosestAspectRatioPrev a dims) ∧
    (∀ a dims, a ≠ "custom" → calculateClosestAspectRatio a dims = a) ∧
    (∀ a, calculateClosestAspectRatio a none = if a = "custom" then "1:1" else a) ∧
    (∀ (w h : ℚ), w = 0 ∨ h = 0 →
      calculateClosestAspectRatio "custom" (some (w, h)) = "1:1") ∧
    (∀ w h : ℚ, w ≠ 0 → h ≠ 0 →
      ∃ p ∈ standardRatios, calculateClosestAspectRatio "custom" (some (w, h)) = p.1 ∧
        ∀ q ∈ standardRatios, |w / h - p.2| ≤ |w / h - q.2|) := by
  refine ⟨fun a dims => rfl, ?_, ?_, ?_, ?_⟩
  · intro a dims ha
    simp [calculateClosestAspectRatio, ha]
  · intro a
    by_cases ha : a = "custom" <;> simp [calculateClosestAspectRatio, ha]
  · intro w h hz
    simp [calculateClosestAspectRatio, hz]
  · intro w h hw hh
    obtain ⟨mono, nofall, origin⟩ := closestFold_spec (w / h) standardRatios ("1:1", none)
    rcases origin with heq | ⟨p, hp, hres⟩
    · exfalso
      have h1 := nofall ("1:1", 1) (by simp [standardRatios])
      rw [heq] at h1
      simp [mltOpt] at h1
    · refine ⟨p, hp, ?_, ?_⟩
      · simp only [calculateClosestAspectRatio, ne_eq, not_true_eq_false, if_false,
          hw, hh, or_self, ite_false]
        rw [hres]
      · intro q hq
        have h2 := nofall q hq
        rw [hres] at h2
        simp only [mltOpt, decide_eq_true_eq] at h2
        exact not_lt.mp (by simpa using h2)

/-- Witness for C10: custom 16×9 dimensions select `16:9`, which indeed
minimizes the distance among the standards. -/
theorem calculateClosestAspectRatio_copies_agree_witness :
    ∃ p ∈ standardRatios, calculateClosestAspectRatio "custom" (some ((16 : ℚ), 9)) = p.1 ∧
      ∀ q ∈ standardRatios, |(16 : ℚ) / 9 - p.2| ≤ |(16 : ℚ) / 9 - q.2| :=
  calculateClosestAspectRatio_copies_agree.2.2.2.2 16 9 (by norm_num) (by norm_num)

/-! ## `parseJSON` theorems (C4) -/

/-- C4 (counterexample): on
`"(fence) nope (fence) \x7b\"a\": 1\x7d"` the whole text is not JSON, the
first markdown fence matches with invalid content `nope`, and `parseJSON`
throws — even though the brace-slice strategy would have extracted the
valid object `\x7b"a": 1\x7d`.  The slice strategy is *not* tried after a
failed fence parse, contradicting the claimed cascade. -/
theorem parseJSON_fence_masks_slice :
    markdownFence "``` nope ``` \x7b\"a\": 1\x7d" = some "nope" ∧
    jsParse "nope" = none ∧
    jsonSliceCandidate "``` nope ``` \x7b\"a\": 1\x7d" = some "\x7b\"a\": 1\x7d" ∧
    jsParse "\x7b\"a\": 1\x7d" = some (Json.obj [("a", Json.num 1)]) ∧
    parseJSON jsParse "``` nope ``` \x7b\"a\": 1\x7d" =
      .error "Invalid JSON response from API" :=
  ⟨rfl, rfl, rfl, rfl, rfl⟩

/-- C4 (amended): the cascade as implemented — valid JSON parses directly;
otherwise the first markdown fence's content is parsed, and if that fails
the function throws without trying the slice strategy; only when no fence
matched is the brace/bracket slice parsed; when nothing applies it throws
`Invalid JSON response from API`. -/
theorem parseJSON_cascade (jp : String → Option Json) (t : String) :
    (∀ v, jp t = some v → parseJSON jp t = .ok v) ∧
    (jp t = none → ∀ inner, markdownFence t = some inner →
      parseJSON jp t = (match jp inner with
        | some v => Except.ok v
        | none => Except.error "Invalid JSON response from API")) ∧
    (jp t = none → markdownFence t = none →
      parseJSON jp t = (match jsonSliceCandidate t with
        | some sub =>
          (match jp sub with
           | some v => Except.ok v
           | none => Except.error "Invalid JSON response from API")
        | none => Except.error "Invalid JSON response from API")) := by
  refine ⟨?_, ?_, ?_⟩
  · intro v hv
    simp [parseJSON, hv]
  · intro hnone inner hinner
    simp [parseJSON, hnone, hinner]
  · intro hnone hfence
    simp [parseJSON, hnone, hfence]

/-- Witness for C4: a conversational wrapper around an object is recovered
through the slice strategy. -/
theorem parseJSON_cascade_witness :
    parseJSON jsParse "see \x7b\"a\": 1\x7d" =
      (match jsonSliceCandidate "see \x7b\"a\": 1\x7d" with
        | some sub =>
          (match jsParse sub with
           | some v => Except.ok v
           | none => Except.error "Invalid JSON response from API")
        | none => Except.error "Invalid JSON response from API") :=
  (parseJSON_cascade jsParse "see \x7b\"a\": 1\x7d").2.2 rfl rfl

/-! ## `sequentialWithDelay` lemmas (C3) -/

/-- A run over tasks that all resolve: results in task order, a wait before
every task except the first (`first = true` marks position 0). -/
theorem seqGo_all_ok {ev ε α : Type} (mkWait : Nat → ev) (d : Nat)
    (items : List (α × List ev)) :
    ∀ first, seqGo mkWait d (items.map fun p => ((Except.ok p.1 : Except ε α), p.2)) first =
      (.ok (items.map Prod.fst),
        if first then interleavedTrace mkWait d (items.map Prod.snd)
        else (items.map Prod.snd).flatMap (fun t => mkWait d :: t)) := by
  induction items with
  | nil => intro first; cases first <;> rfl
  | cons x xs ih =>
    intro first
    have hrest := ih false
    cases first <;>
      simp [seqGo, hrest, interleavedTrace, Except.map, List.flatMap_cons, List.append_assoc]

/-- C3: `sequentialWithDelay` over resolving tasks returns one result per
task in task order and runs strictly sequentially — the trace is task 0's
events, then for every later task a `delayMs` wait (source default 1500)
followed by that task's events; and the pipeline's image-render stage is
scheduled through this helper (its trace is the `sequentialWithDelay`
trace of the per-perspective render tasks with a 1500 ms delay). -/
theorem sequentialWithDelay_spec :
    (∀ {ev ε α : Type} (mkWait : Nat → ev) (d : Nat) (items : List (α × List ev)),
      sequentialWithDelay mkWait d (items.map fun p => ((Except.ok p.1 : Except ε α), p.2)) =
        (.ok (items.map Prod.fst), interleavedTrace mkWait d (items.map Prod.snd))) ∧
    (∀ (jp : String → Option Json) (env : GenEnv) (opts : GenOptions) (info : ProductInfo),
      apiKeyPresent env = true →
      (generateContentFromImage jp env opts info).2 =
        PEvent.callSocialDeck :: PEvent.callPromptCraft ::
          (sequentialWithDelay PEvent.waited 1500
            (renderTasks jp env opts (creativePerspectivesOf jp env opts info) 0)).2) := by
  constructor
  · intro ev ε α mkWait d items
    simpa [sequentialWithDelay] using seqGo_all_ok mkWait d items true
  · intro jp env opts info hkey
    unfold generateContentFromImage
    rw [if_pos hkey]
    dsimp only
    split <;> rfl

/-- Witness for C3: with every call succeeding, the render-stage trace of
the pipeline is the `sequentialWithDelay` trace of its render tasks. -/
theorem sequentialWithDelay_spec_witness :
    (generateContentFromImage jsParse witEnvOk witOpts witInfo).2 =
      PEvent.callSocialDeck :: PEvent.callPromptCraft ::
        (sequentialWithDelay PEvent.waited 1500
          (renderTasks jsParse witEnvOk witOpts
            (creativePerspectivesOf jsParse witEnvOk witOpts witInfo) 0)).2 :=
  sequentialWithDelay_spec.2 jsParse witEnvOk witOpts witInfo rfl

/-! ## Pipeline stage-order lemmas (C1) -/

/-- The brainstorm stage performs exactly its one model call. -/
theorem brainstorm_trace (jp : String → Option Json) (env : GenEnv)
    (hkey : apiKeyPresent env = true) :
    (generateBrainstormAngles jp env).2 = [PEvent.callBrainstorm] := by
  unfold generateBrainstormAngles
  rw [if_pos hkey]
  split
  · rfl
  · split
    · rfl
    · split <;> rfl

/-- The trace of the pipeline body given the API key, exposing the
render-stage scheduling. -/
theorem content_trace_shape (jp : String → Option Json) (env : GenEnv) (opts : GenOptions)
    (info : ProductInfo) (hkey : apiKeyPresent env = true) :
    (generateContentFromImage jp env opts info).2 =
      PEvent.callSocialDeck :: PEvent.callPromptCraft ::
        (sequentialWithDelay PEvent.waited 1500
          (renderTasks jp env opts (creativePerspectivesOf jp env opts info) 0)).2 := by
  unfold generateContentFromImage
  rw [if_pos hkey]
  dsimp only
  split <;> rfl

/-- A perspective task's trace is its render call possibly followed by its
own social-copy call. -/
theorem renderTask_trace (jp : String → Option Json) (env : GenEnv) (opts : GenOptions)
    (pd : CreativePromptResult) (s : Nat) :
    (renderTask jp env opts pd s).2 = [PEvent.callRender s] ∨
      (renderTask jp env opts pd s).2 = [PEvent.callRender s, PEvent.callSocialCopy s] := by
  unfold renderTask
  split
  · exact Or.inl rfl
  · split
    · exact Or.inl rfl
    · split
      · exact Or.inl rfl
      · dsimp only
        split
        · exact Or.inr rfl
        · exact Or.inl rfl

/-- The trace of one `sequentialWithDelay` step over an explicit head
task. -/
theorem seqGo_cons {ev ε α : Type} (mkWait : Nat → ev) (d : Nat) (r : Except ε α)
    (tr : List ev) (ts : List (Except ε α × List ev)) (first : Bool) :
    (seqGo mkWait d ((r, tr) :: ts) first).2 =
      (if first then [] else [mkWait d]) ++ tr ++
        (match r with
         | .error _ => []
         | .ok _ => (seqGo mkWait d ts false).2) := by
  cases r <;> cases first <;> simp [seqGo]

/-- In the render stage's trace, the social-copy call for image `i` never
occurs before the render call for image `i`. -/
theorem socialcopy_not_before_render (jp : String → Option Json) (env : GenEnv)
    (opts : GenOptions) (pds : List CreativePromptResult) :
    ∀ (s : Nat) (first : Bool) (i : Nat),
      PEvent.callSocialCopy i ∉
        (seqGo PEvent.waited 1500 (renderTasks jp env opts pds s) first).2.takeWhile
          (fun e => decide (e ≠ PEvent.callRender i)) := by
  induction pds with
  | nil =>
    intro s first i
    simp [renderTasks, seqGo]
  | cons pd rest ih =>
    intro s first i
    have htr := renderTask_trace jp env opts pd s
    show PEvent.callSocialCopy i ∉
      (seqGo PEvent.waited 1500
        (((renderTask jp env opts pd s).1, (renderTask jp env opts pd s).2) ::
          renderTasks jp env opts rest (s + 1)) first).2.takeWhile
        (fun e => decide (e ≠ PEvent.callRender i))
    rw [seqGo_cons]
    by_cases hsi : s = i
    · subst hsi
      rcases htr with h2 | h2 <;> rw [h2] <;>
        cases (renderTask jp env opts pd s).1 <;> cases first <;>
          simp [List.takeWhile]
    · rcases htr with h2 | h2 <;> rw [h2] <;>
        cases (renderTask jp env opts pd s).1 <;> cases first <;>
          first
            | simpa [List.takeWhile, hsi, Ne.symm hsi] using ih (s + 1) false i
            | simp [List.takeWhile, hsi, Ne.symm hsi]

/-- C1: in every run of the composed pipeline the stages are sequenced
brainstorm, then prompt-craft, then image-render, then per-image social
copy: the brainstorm call is the first event and the prompt-craft call
comes before every render call (positions 0 and 2 of the trace), and the
social-copy call for image `i` never begins before the render call for
image `i` has returned. -/
theorem pipeline_stage_order (jp : String → Option Json) (env : GenEnv) (opts : GenOptions)
    (info : ProductInfo) (angles : List String)
    (hkey : apiKeyPresent env = true)
    (hbs : (generateBrainstormAngles jp env).1 = Except.ok angles) :
    (runPipeline jp env opts info).2.take 3 =
      [PEvent.callBrainstorm, PEvent.callSocialDeck, PEvent.callPromptCraft] ∧
    (∀ i, PEvent.callRender i ∉ (runPipeline jp env opts info).2.take 3) ∧
    (∀ i, PEvent.callSocialCopy i ∉
      (runPipeline jp env opts info).2.takeWhile (fun e => decide (e ≠ PEvent.callRender i))) := by
  have hb : generateBrainstormAngles jp env = (Except.ok angles, [PEvent.callBrainstorm]) :=
    Prod.ext_iff.mpr ⟨hbs, brainstorm_trace jp env hkey⟩
  have hrun : (runPipeline jp env opts info).2 =
      PEvent.callBrainstorm ::
        (generateContentFromImage jp env
          { opts with selectedAngles := opts.selectedAngles ++
              angles.map (fun a => "custom:" ++ strTrim a) } info).2 := by
    unfold runPipeline
    rw [hb]
    rfl
  refine ⟨?_, ?_, ?_⟩
  · rw [hrun, content_trace_shape jp env _ info hkey]
    rfl
  · intro i
    rw [hrun, content_trace_shape jp env _ info hkey]
    simp
  · intro i
    rw [hrun, content_trace_shape jp env _ info hkey]
    simpa [List.takeWhile, sequentialWithDelay] using
      socialcopy_not_before_render jp env _ (creativePerspectivesOf jp env _ info) 0 true i

/-- Witness for C1: with every call succeeding, the composed pipeline's
trace starts with the brainstorm, deck-social and prompt-craft calls. -/
theorem pipeline_stage_order_witness :
    (runPipeline jsParse witEnvOk witOpts witInfo).2.take 3 =
      [PEvent.callBrainstorm, PEvent.callSocialDeck, PEvent.callPromptCraft] :=
  (pipeline_stage_order jsParse witEnvOk witOpts witInfo ["glass on marble"] rfl rfl).1

/-! ## Render-count lemmas (C5) -/

/-- A perspective task resolves (possibly to `none`) whenever its render
call resolves. -/
theorem renderTask_ok (jp : String → Option Json) (env : GenEnv) (opts : GenOptions)
    (pd : CreativePromptResult) (i : Nat) (ps : List RespPart)
    (h : env.renderResp i = Except.ok ps) :
    ∃ po, (renderTask jp env opts pd i).1 = Except.ok po := by
  unfold renderTask
  rw [h]
  dsimp only
  split
  · exact ⟨none, rfl⟩
  · split
    · exact ⟨none, rfl⟩
    · split
      · exact ⟨_, rfl⟩
      · exact ⟨_, rfl⟩

/-- The first component of one `sequentialWithDelay` step. -/
theorem seqGo_cons_fst {ev ε α : Type} (mkWait : Nat → ev) (d : Nat) (r : Except ε α)
    (tr : List ev) (ts : List (Except ε α × List ev)) (first : Bool) :
    (seqGo mkWait d ((r, tr) :: ts) first).1 =
      (match r with
       | .error e => .error e
       | .ok v => (seqGo mkWait d ts false).1.map (v :: ·)) := by
  cases r <;> cases first <;> simp [seqGo]

/-- When every render call resolves, the render stage issues exactly one
render request per creative perspective. -/
theorem render_count (jp : String → Option Json) (env : GenEnv) (opts : GenOptions)
    (pds : List CreativePromptResult) :
    ∀ s first, (∀ k, k < pds.length → ∃ ps, env.renderResp (s + k) = Except.ok ps) →
      ((seqGo PEvent.waited 1500 (renderTasks jp env opts pds s) first).2.countP isRenderEvent) =
        pds.length := by
  induction pds with
  | nil =>
    intro s first _
    simp [renderTasks, seqGo]
  | cons pd rest ih =>
    intro s first h
    obtain ⟨ps, hps⟩ := h 0 (by simp)
    obtain ⟨po, hpo⟩ := renderTask_ok jp env opts pd s ps (by simpa using hps)
    have htr := renderTask_trace jp env opts pd s
    have hrest : ∀ k, k < rest.length → ∃ ps', env.renderResp (s + 1 + k) = Except.ok ps' := by
      intro k hk
      have := h (k + 1) (by simpa using Nat.succ_lt_succ hk)
      simpa [Nat.add_assoc, Nat.add_comm, Nat.add_left_comm] using this
    show ((seqGo PEvent.waited 1500
      (((renderTask jp env opts pd s).1, (renderTask jp env opts pd s).2) ::
        renderTasks jp env opts rest (s + 1)) first).2.countP isRenderEvent) = _
    rw [seqGo_cons, hpo]
    rcases htr with h2 | h2 <;> rw [h2] <;> cases first <;>
      simp [List.countP_append, List.countP_cons, isRenderEvent, ih (s + 1) false hrest,
        Nat.add_comm]

/-- The number of render tasks is the number of creative perspectives. -/
theorem renderTasks_length (jp : String → Option Json) (env : GenEnv) (opts : GenOptions)
    (pds : List CreativePromptResult) : ∀ s, (renderTasks jp env opts pds s).length = pds.length := by
  induction pds with
  | nil => intro s; rfl
  | cons pd rest ih => intro s; simp [renderTasks, ih (s + 1)]

/-- A fully resolving `sequentialWithDelay` run yields one result per
task. -/
theorem seqGo_ok_length {ev ε α : Type} (mkWait : Nat → ev) (d : Nat)
    (tasks : List (Except ε α × List ev)) :
    ∀ first lst, (seqGo mkWait d tasks first).1 = .ok lst → lst.length = tasks.length := by
  induction tasks with
  | nil =>
    intro first lst h
    simp [seqGo] at h
    simp [← h]
  | cons t ts ih =>
    intro first lst h
    rw [show t = (t.1, t.2) from rfl, seqGo_cons_fst] at h
    cases ht : t.1 with
    | error e =>
      rw [ht] at h
      cases h
    | ok v =>
      rw [ht] at h
      cases hr : (seqGo mkWait d ts false).1 with
      | error e =>
        rw [hr] at h
        cases h
      | ok lst' =>
        rw [hr] at h
        simp only [Except.map] at h
        cases h
        simp [ih false lst' hr]

/-- The length of a `flatMap` whose pieces all have length `n`. -/
theorem flatMap_const_length {α β : Type} (l : List α) (n : Nat) (f : α → List β)
    (hf : ∀ a, (f a).length = n) : (l.flatMap f).length = l.length * n := by
  induction l with
  | nil => simp
  | cons a t ih => simp [ih, hf, Nat.succ_mul, Nat.add_comm]

/-- One expanded angle per selected angle per variation. -/
theorem expanded_length (opts : GenOptions) :
    (expandedAnglesOf opts).length =
      opts.selectedAngles.length * (opts.imagesPerAngle.getD 1) := by
  unfold expandedAnglesOf
  exact flatMap_const_length _ _ _ (fun a => by simp)

/-- C5 (counterexample): with two selected angles and one image per angle
but a prompt-craft response containing a single perspective, only one
creative perspective exists and only one render request is issued — not
`selectedAngles × imagesPerAngle = 2`. -/
theorem render_count_mismatch :
    (creativePerspectivesOf jsParse witEnvOne witOpts witInfo).length = 1 ∧
    witOpts.selectedAngles.length * (witOpts.imagesPerAngle.getD 1) = 2 ∧
    ((generateContentFromImage jsParse witEnvOne witOpts witInfo).2.countP isRenderEvent) = 1 :=
  ⟨rfl, rfl, rfl⟩

/-- C5 (amended): when every render call resolves, exactly one image-render
request is issued per creative perspective; the number of creative
perspectives equals `selectedAngles × imagesPerAngle` when the prompt-craft
call throws (the fallback path) — on success it is the length of the parsed
perspectives array, which is not checked against the angle count; and the
returned perspectives list has at most one entry per creative perspective
(render responses with no image part are dropped). -/
theorem render_count_spec (jp : String → Option Json) (env : GenEnv) (opts : GenOptions)
    (info : ProductInfo) (hkey : apiKeyPresent env = true)
    (hrend : ∀ k, k < (creativePerspectivesOf jp env opts info).length →
      ∃ ps, env.renderResp k = Except.ok ps) :
    ((generateContentFromImage jp env opts info).2.countP isRenderEvent) =
      (creativePerspectivesOf jp env opts info).length ∧
    (generateCreativeImagePrompts jp env.promptCraftText (expandedAnglesOf opts) = .error () →
      (creativePerspectivesOf jp env opts info).length =
        opts.selectedAngles.length * (opts.imagesPerAngle.getD 1)) ∧
    (∀ data, (generateContentFromImage jp env opts info).1 = .ok data →
      data.perspectives.length ≤ (creativePerspectivesOf jp env opts info).length) := by
  refine ⟨?_, ?_, ?_⟩
  · rw [content_trace_shape jp env opts info hkey]
    have hc := render_count jp env opts (creativePerspectivesOf jp env opts info) 0 true
      (by simpa using hrend)
    simp [List.countP_cons, isRenderEvent, sequentialWithDelay]
    simpa [sequentialWithDelay] using hc
  · intro hpc
    unfold creativePerspectivesOf
    dsimp only
    rw [hpc]
    simpa using expanded_length opts
  · intro data hdata
    unfold generateContentFromImage at hdata
    rw [if_pos hkey] at hdata
    dsimp only at hdata
    revert hdata
    split
    · intro hdata
      cases hdata
    · rename_i lst hlst
      intro hdata
      cases hdata
      have hlen := seqGo_ok_length PEvent.waited 1500
        (renderTasks jp env opts (creativePerspectivesOf jp env opts info) 0) true lst hlst
      calc (lst.filterMap id).length ≤ lst.length := List.length_filterMap_le id lst
        _ = _ := by rw [hlen, renderTasks_length]

/-- Witness for C5: in the all-successful environment the render count
equals the two creative perspectives the model answered. -/
theorem render_count_spec_witness :
    ((generateContentFromImage jsParse witEnvOk witOpts witInfo).2.countP isRenderEvent) =
      (creativePerspectivesOf jsParse witEnvOk witOpts witInfo).length :=
  (render_count_spec jsParse witEnvOk witOpts witInfo rfl
    (fun k _ => ⟨[witRespPart], rfl⟩)).1

/-! ## Failure-containment lemmas (C7) -/

/-- Prefixes of appended lists. -/
theorem listStartsWith_append (l m : List Char) : listStartsWith (l ++ m) l = true := by
  induction l with
  | nil => cases m <;> rfl
  | cons a t ih => simp [listStartsWith, ih]

/-- A string starts with any prefix it was built from. -/
theorem strStartsWith_append (p s : String) : strStartsWith (p ++ s) p = true := by
  unfold strStartsWith
  rw [String.data_append]
  exact listStartsWith_append _ _

/-- A rejected first task rejects the whole `sequentialWithDelay` run. -/
theorem seqGo_first_error {ev ε α : Type} (mkWait : Nat → ev) (d : Nat) (r : Except ε α)
    (tr : List ev) (ts : List (Except ε α × List ev)) (first : Bool) (e : ε)
    (h : r = .error e) : (seqGo mkWait d ((r, tr) :: ts) first).1 = .error e := by
  subst h
  cases first <;> simp [seqGo]

/-- C7: social-copy failures are contained while render failures abort.
If the deck-level social call rejects, `socialPosts` is returned empty and
the pipeline continues; if the per-image social copy call for image `i`
rejects, that perspective is still produced, without its `socialCopy`
field, and the task still resolves; an error escaping the render stage
aborts the whole call with a message starting `Image generation failed: `
(in particular a rejected first render call). -/
theorem social_failures_contained (jp : String → Option Json) (env : GenEnv)
    (opts : GenOptions) (info : ProductInfo) :
    (∀ e, env.socialDeckText = .error e → computeSocialPosts jp env opts = []) ∧
    (∀ e data, env.socialDeckText = .error e →
      (generateContentFromImage jp env opts info).1 = .ok data → data.socialPosts = []) ∧
    (∀ i pd e ps, env.socialCopyText i = .error e → env.renderResp i = Except.ok ps →
      ∃ po, (renderTask jp env opts pd i).1 = Except.ok po ∧
        ∀ p, po = some p → p.socialCopy = none) ∧
    (apiKeyPresent env = true → ∀ m, (generateContentFromImage jp env opts info).1 = .error m →
      strStartsWith m "Image generation failed: " = true) ∧
    (apiKeyPresent env = true → ∀ e, creativePerspectivesOf jp env opts info ≠ [] →
      env.renderResp 0 = .error e →
      (generateContentFromImage jp env opts info).1 =
        .error ("Image generation failed: " ++ jsMessageOf e)) := by
  have hdeck : ∀ e, env.socialDeckText = .error e → computeSocialPosts jp env opts = [] := by
    intro e he
    unfold computeSocialPosts
    rw [he]
  refine ⟨hdeck, ?_, ?_, ?_, ?_⟩
  · intro e data he hdata
    by_cases hkey : apiKeyPresent env = true
    · unfold generateContentFromImage at hdata
      rw [if_pos hkey] at hdata
      dsimp only at hdata
      revert hdata
      split
      · intro hdata
        cases hdata
      · intro hdata
        injection hdata with h2
        rw [← h2]
        exact hdeck e he
    · unfold generateContentFromImage at hdata
      rw [if_neg hkey] at hdata
      cases hdata
  · intro i pd e ps hsc hps
    unfold renderTask
    rw [hps]
    dsimp only
    split
    · exact ⟨none, rfl, fun p hp => by cases hp⟩
    · split
      · exact ⟨none, rfl, fun p hp => by cases hp⟩
      · rw [hsc]
        split
        · exact ⟨_, rfl, fun p hp => by cases hp; rfl⟩
        · exact ⟨_, rfl, fun p hp => by cases hp; rfl⟩
  · intro hkey m hm
    unfold generateContentFromImage at hm
    rw [if_pos hkey] at hm
    dsimp only at hm
    revert hm
    split
    · intro hm
      injection hm with h2
      rw [← h2]
      exact strStartsWith_append _ _
    · intro hm
      cases hm
  · intro hkey e hne herr
    cases hpds : creativePerspectivesOf jp env opts info with
    | nil => exact absurd hpds hne
    | cons pd rest =>
      have ht1 : (renderTask jp env opts pd 0).1 = Except.error e := by
        unfold renderTask
        rw [herr]
      have hseq1 : (sequentialWithDelay PEvent.waited 1500
          (renderTasks jp env opts (pd :: rest) 0)).1 = Except.error e := by
        show (seqGo PEvent.waited 1500
          (((renderTask jp env opts pd 0).1, (renderTask jp env opts pd 0).2) ::
            renderTasks jp env opts rest 1) true).1 = _
        exact seqGo_first_error _ _ _ _ _ _ e ht1
      unfold generateContentFromImage
      rw [if_pos hkey]
      dsimp only
      rw [hpds, hseq1]

/-- Witness for C7: with the deck social call rejecting, the per-image
social copy rejecting and renders succeeding, the deck posts are empty. -/
theorem social_failures_contained_witness :
    computeSocialPosts jsParse witEnvFail witOpts = [] :=
  (social_failures_contained jsParse witEnvFail witOpts witInfo).1
    { status := some 500, code := none, message := some "boom" } rfl

/-! ## Video polling lemmas (C8) -/

/-- The polling trace is wait-then-query repeated: one 5000 ms wait before
every status query, with consecutive query indices. -/
theorem pollLoop_trace_shape (poll : Nat → PollStep) (fuel : Nat) :
    ∀ i, ∃ k, k ≤ fuel ∧
      (pollLoop poll fuel i).2 =
        (List.range k).flatMap (fun j => [VEvent.waited 5000, VEvent.statusQuery (i + j)]) := by
  induction fuel with
  | zero =>
    intro i
    exact ⟨0, Nat.le_refl 0, rfl⟩
  | succ f ih =>
    intro i
    cases hp : poll i with
    | httpFail c =>
      refine ⟨1, by omega, ?_⟩
      unfold pollLoop
      rw [hp]
      rfl
    | respOk st lg out =>
      by_cases h1 : st = "COMPLETED"
      · refine ⟨1, by omega, ?_⟩
        unfold pollLoop
        rw [hp]
        dsimp only
        rw [if_pos h1]
        cases out with
        | none => rfl
        | some u => by_cases hu : u = "" <;> simp [hu] <;> rfl
      · by_cases h2 : st = "ERROR"
        · refine ⟨1, by omega, ?_⟩
          unfold pollLoop
          rw [hp]
          dsimp only
          rw [if_neg h1, if_pos h2]
          rfl
        · obtain ⟨k, hk, htr⟩ := ih (i + 1)
          refine ⟨k + 1, by omega, ?_⟩
          unfold pollLoop
          rw [hp]
          dsimp only
          rw [if_neg h1, if_neg h2]
          dsimp only
          rw [htr]
          simp [List.range_succ_eq_map, List.flatMap_cons, List.flatMap_map,
            Nat.add_assoc, Nat.add_comm, Nat.add_left_comm]

/-- Skipping `n` in-progress polls: the loop's outcome is the outcome of the
loop restarted `n` steps later, and `n` queries were spent. -/
theorem pollLoop_skip (poll : Nat → PollStep) :
    ∀ (n : Nat) (fuel i : Nat), n ≤ fuel →
      (∀ j, j < n → ∃ st lg out, poll (i + j) = PollStep.respOk st lg out ∧
        st ≠ "COMPLETED" ∧ st ≠ "ERROR") →
      (pollLoop poll fuel i).1 = (pollLoop poll (fuel - n) (i + n)).1 ∧
      (pollLoop poll fuel i).2.countP isQueryEvent =
        n + (pollLoop poll (fuel - n) (i + n)).2.countP isQueryEvent := by
  intro n
  induction n with
  | zero =>
    intro fuel i _ _
    simp
  | succ m ih =>
    intro fuel i hlt hprog
    cases fuel with
    | zero => omega
    | succ f =>
      obtain ⟨st, lg, out, hp, hc, he⟩ := hprog 0 (Nat.succ_pos m)
      rw [Nat.add_zero] at hp
      have hstep : pollLoop poll (f + 1) i =
          ((pollLoop poll f (i + 1)).1,
            [VEvent.waited 5000, VEvent.statusQuery i] ++ (pollLoop poll f (i + 1)).2) := by
        conv_lhs => unfold pollLoop
        rw [hp]
        dsimp only
        rw [if_neg hc, if_neg he]
      obtain ⟨ih1, ih2⟩ := ih f (i + 1) (by omega) (fun j hj => by
        have := hprog (j + 1) (by omega)
        simpa [Nat.add_assoc, Nat.add_comm, Nat.add_left_comm] using this)
      constructor
      · rw [hstep]
        dsimp only
        have harith : f + 1 - (m + 1) = f - m := by omega
        have hidx : i + (m + 1) = i + 1 + m := by omega
        rw [harith, hidx, ih1]
      · rw [hstep]
        dsimp only
        rw [List.countP_append]
        have harith : f + 1 - (m + 1) = f - m := by omega
        have hidx : i + (m + 1) = i + 1 + m := by omega
        rw [harith, hidx, ih2]
        simp only [List.countP_cons, List.countP_nil, isQueryEvent]
        norm_num
        omega

/-- `generateVideo` reaches the polling loop when the submit round trip
succeeds with a truthy status URL. -/
theorem generateVideo_submits (env : VideoEnv) (u0 : String)
    (hst : env.submitStatus = 200) (hurl : env.submitUrl = some u0) (hu0 : u0 ≠ "") :
    generateVideo env = pollLoop env.poll 60 0 := by
  unfold generateVideo
  rw [if_neg (by decide : ¬falApiKeyConst = "")]
  rw [if_neg (by simp [hst])]
  rw [hurl]
  dsimp only
  rw [if_neg hu0]

/-- A COMPLETED poll with a truthy URL ends the loop with that URL. -/
theorem pollLoop_completed_head (poll : Nat → PollStep) (fuel i : Nat) (hf : 0 < fuel)
    (lg : Option (List String)) (u : String)
    (hp : poll i = PollStep.respOk "COMPLETED" lg (some u)) (hu : u ≠ "") :
    pollLoop poll fuel i = (.ok u, [VEvent.waited 5000, VEvent.statusQuery i]) := by
  cases fuel with
  | zero => omega
  | succ f =>
    unfold pollLoop
    rw [hp]
    dsimp only
    rw [if_pos rfl]
    rw [if_neg hu]

/-- An ERROR poll throws at once with the joined log messages. -/
theorem pollLoop_error_head (poll : Nat → PollStep) (fuel i : Nat) (hf : 0 < fuel)
    (lg : Option (List String)) (out : Option String)
    (hp : poll i = PollStep.respOk "ERROR" lg out) :
    pollLoop poll fuel i =
      (.error ("Video generation failed. The model reported an error: " ++ joinedLogsOr lg),
        [VEvent.waited 5000, VEvent.statusQuery i]) := by
  cases fuel with
  | zero => omega
  | succ f =>
    unfold pollLoop
    rw [hp]
    dsimp only
    rw [if_neg (by decide : ¬("ERROR" = "COMPLETED")), if_pos rfl]

/-- One query per wait-query pair. -/
theorem countP_poll_trace (k : Nat) :
    ((List.range k).flatMap (fun j => [VEvent.waited 5000, VEvent.statusQuery j])).countP
      isQueryEvent = k := by
  induction k with
  | zero => rfl
  | succ k ih =>
    rw [List.range_succ, List.flatMap_append, List.countP_append, ih]
    rfl

/-- C8 (amended): the fal.ai polling loop queries the status URL at most 60
times, waiting 5000 ms before every query; when the status first reported
is COMPLETED it stops early, returning the video URL if the response
carries one; an ERROR status throws immediately; and exhausting the 60
attempts throws the message beginning
`Video generation timed out after 5 minutes`. -/
theorem generateVideo_polling_spec (env : VideoEnv) :
    (∃ k, k ≤ 60 ∧ (generateVideo env).2 =
      (List.range k).flatMap (fun j => [VEvent.waited 5000, VEvent.statusQuery j])) ∧
    ((generateVideo env).2.countP isQueryEvent ≤ 60) ∧
    (∀ u0, env.submitStatus = 200 → env.submitUrl = some u0 → u0 ≠ "" →
      (∀ n, n < 60 →
        (∀ j, j < n → ∃ st lg out, env.poll j = PollStep.respOk st lg out ∧
          st ≠ "COMPLETED" ∧ st ≠ "ERROR") →
        (∀ lg u, env.poll n = PollStep.respOk "COMPLETED" lg (some u) → u ≠ "" →
          (generateVideo env).1 = .ok u ∧
            (generateVideo env).2.countP isQueryEvent = n + 1) ∧
        (∀ lg out, env.poll n = PollStep.respOk "ERROR" lg out →
          (generateVideo env).1 =
            .error ("Video generation failed. The model reported an error: " ++
              joinedLogsOr lg) ∧
            (generateVideo env).2.countP isQueryEvent = n + 1)) ∧
      ((∀ j, j < 60 → ∃ st lg out, env.poll j = PollStep.respOk st lg out ∧
          st ≠ "COMPLETED" ∧ st ≠ "ERROR") →
        (generateVideo env).1 = .error videoTimeoutMsg)) ∧
    strStartsWith videoTimeoutMsg "Video generation timed out after 5 minutes" = true := by
  have hshape : ∃ k, k ≤ 60 ∧ (generateVideo env).2 =
      (List.range k).flatMap (fun j => [VEvent.waited 5000, VEvent.statusQuery j]) := by
    unfold generateVideo
    rw [if_neg (by decide : ¬falApiKeyConst = "")]
    by_cases hst : env.submitStatus ≠ 200
    · rw [if_pos hst]
      exact ⟨0, by omega, rfl⟩
    · rw [if_neg hst]
      cases hurl : env.submitUrl with
      | none => exact ⟨0, by omega, rfl⟩
      | some u =>
        dsimp only
        by_cases hu : u = ""
        · rw [if_pos hu]
          exact ⟨0, by omega, rfl⟩
        · rw [if_neg hu]
          obtain ⟨k, hk, htr⟩ := pollLoop_trace_shape env.poll 60 0
          exact ⟨k, hk, by simpa using htr⟩
  refine ⟨hshape, ?_, ?_, by decide⟩
  · obtain ⟨k, hk, htr⟩ := hshape
    rw [htr, countP_poll_trace]
    exact hk
  · intro u0 hst hurl hu0
    have hgv := generateVideo_submits env u0 hst hurl hu0
    constructor
    · intro n hn hprog
      obtain ⟨hskip1, hskip2⟩ := pollLoop_skip env.poll n 60 0 (by omega)
        (fun j hj => by simpa using hprog j hj)
      constructor
      · intro lg u hp hu
        have hhead := pollLoop_completed_head env.poll (60 - n) (0 + n) (by omega) lg u
          (by simpa using hp) hu
        rw [hgv]
        constructor
        · rw [hskip1, hhead]
        · rw [hskip2, hhead]
          rfl
      · intro lg out hp
        have hhead := pollLoop_error_head env.poll (60 - n) (0 + n) (by omega) lg out
          (by simpa using hp)
        rw [hgv]
        constructor
        · rw [hskip1, hhead]
        · rw [hskip2, hhead]
          rfl
    · intro hprog
      obtain ⟨hskip1, _⟩ := pollLoop_skip env.poll 60 60 0 (by omega)
        (fun j hj => by simpa using hprog j hj)
      rw [hgv, hskip1]
      rfl

/-- C8 (counterexample): a first poll reporting COMPLETED but carrying no
output URL makes `generateVideo` throw
`Could not find video URL in fal.ai response.` instead of returning a
video URL. -/
theorem generateVideo_completed_without_url :
    witVideoNoUrl.poll 0 = PollStep.respOk "COMPLETED" none none ∧
    generateVideo witVideoNoUrl =
      (.error "Could not find video URL in fal.ai response.",
        [VEvent.waited 5000, VEvent.statusQuery 0]) :=
  ⟨rfl, rfl⟩

/-- Witness for C8: a COMPLETED first poll with a URL returns that URL
after a single query. -/
theorem generateVideo_polling_spec_witness :
    (generateVideo witVideoDone).1 = .ok "https://cdn/video.mp4" ∧
    (generateVideo witVideoDone).2.countP isQueryEvent = 0 + 1 :=
  ((((generateVideo_polling_spec witVideoDone).2.2.1 "https://queue/status" rfl rfl
    (by decide)).1 0 (by omega) (fun j hj => absurd hj (by omega))).1 none
    "https://cdn/video.mp4" rfl (by decide))

/-! ## Drive export lemmas (C9) -/

/-- Occurrence is preserved by appending on the right. -/
theorem occursIn_append_left (n a b : String) (h : occursIn n a) : occursIn n (a ++ b) := by
  obtain ⟨s, t, hst⟩ := h
  refine ⟨s, t ++ b.data, ?_⟩
  rw [String.data_append, ← hst]
  simp [List.append_assoc]

/-- Occurrence is preserved by appending on the left. -/
theorem occursIn_append_right (n a b : String) (h : occursIn n b) : occursIn n (a ++ b) := by
  obtain ⟨s, t, hst⟩ := h
  refine ⟨a.data ++ s, t, ?_⟩
  rw [String.data_append, ← hst]
  simp [List.append_assoc]

/-- Occurrence in a member lifts to the concatenation. -/
theorem occursIn_concatAll (needle x : String) (l : List String) (hx : x ∈ l)
    (h : occursIn needle x) : occursIn needle (concatAll l) := by
  induction l with
  | nil => cases hx
  | cons s t ih =>
    rcases List.mem_cons.mp hx with rfl | hx'
    · exact occursIn_append_left _ _ _ h
    · exact occursIn_append_right _ _ _ (ih hx')

/-- The image prompt is written into its perspective's text block. -/
theorem prompt_in_section (idx : Nat) (p : GeneratedPerspective) :
    occursIn p.prompt (perspectiveSection idx p) := by
  unfold occursIn perspectiveSection
  refine ⟨("Perspective " ++ toString (idx + 1) ++ ": " ++ p.label ++ "\n" ++
      "Image Prompt: ").data,
    ("\n" ++ (match p.veoPrompt with
        | some v => if v = "" then "" else "Veo Video Prompt: " ++ v ++ "\n"
        | none => "") ++
      (match p.mainImage.description with
        | some d => "Description (EN): " ++ d.1 ++ "\n" ++ "Description (CN): " ++ d.2 ++ "\n"
        | none => "") ++ "\n").data, ?_⟩
  simp [String.data_append, List.append_assoc]

/-- A truthy veo prompt is written into its perspective's text block. -/
theorem veo_in_section (idx : Nat) (p : GeneratedPerspective) (v : String)
    (hv : p.veoPrompt = some v) (hne : v ≠ "") :
    occursIn v (perspectiveSection idx p) := by
  unfold occursIn perspectiveSection
  rw [hv]
  refine ⟨("Perspective " ++ toString (idx + 1) ++ ": " ++ p.label ++ "\n" ++
      "Image Prompt: " ++ p.prompt ++ "\n" ++ "Veo Video Prompt: ").data,
    ("\n" ++ (match p.mainImage.description with
        | some d => "Description (EN): " ++ d.1 ++ "\n" ++ "Description (CN): " ++ d.2 ++ "\n"
        | none => "") ++ "\n").data, ?_⟩
  simp [String.data_append, List.append_assoc, hne]

/-- A social post is written into its platform's text block. -/
theorem post_in_socialSection (pl post : String) : occursIn post (socialSection pl post) := by
  unfold occursIn socialSection
  refine ⟨("====================\n" ++ strUpper pl ++ " POST\n====================\n\n").data,
    ("\n\n\n").data, ?_⟩
  simp [String.data_append, List.append_assoc]

/-- A member of a list appears at some index of its enumeration. -/
theorem mem_enumFrom_of_mem {α : Type} (p : α) :
    ∀ (l : List α) (n : Nat), p ∈ l → ∃ i, (i, p) ∈ List.enumFrom n l := by
  intro l
  induction l with
  | nil =>
    intro n h
    cases h
  | cons a t ih =>
    intro n h
    rcases List.mem_cons.mp h with rfl | h'
    · exact ⟨n, by simp [List.enumFrom]⟩
    · obtain ⟨i, hi⟩ := ih (n + 1) h'
      exact ⟨i, by simp [List.enumFrom, hi]⟩

/-- Every perspective's prompts and every social post occur in the content
of `social-media-content.txt`. -/
theorem textContent_occurrences (data : GeneratedData) (campaign : String) :
    (∀ p ∈ data.perspectives,
      occursIn p.prompt (textContentOf data campaign) ∧
      ∀ v, p.veoPrompt = some v → v ≠ "" → occursIn v (textContentOf data campaign)) ∧
    (∀ pp ∈ data.socialPosts, occursIn pp.2 (textContentOf data campaign)) := by
  constructor
  · intro p hp
    obtain ⟨i, hi⟩ := mem_enumFrom_of_mem p data.perspectives 0 hp
    have hsec : perspectiveSection i p ∈
        data.perspectives.enum.map (fun ip => perspectiveSection ip.1 ip.2) :=
      List.mem_map.mpr ⟨(i, p), hi, rfl⟩
    constructor
    · exact occursIn_append_left _ _ _ (occursIn_append_right _ _ _
        (occursIn_concatAll _ _ _ hsec (prompt_in_section i p)))
    · intro v hv hne
      exact occursIn_append_left _ _ _ (occursIn_append_right _ _ _
        (occursIn_concatAll _ _ _ hsec (veo_in_section i p v hv hne)))
  · intro pp hpp
    have hsec : socialSection pp.1 pp.2 ∈
        data.socialPosts.map (fun q => socialSection q.1 q.2) :=
      List.mem_map.mpr ⟨pp, hpp, rfl⟩
    exact occursIn_append_right _ _ _
      (occursIn_concatAll _ _ _ hsec (post_in_socialSection pp.1 pp.2))

/-- With all uploads succeeding, the loop uploads one file per image with
its computed filename and base64 payload, in order. -/
theorem uploadImagesLoop_ok (env : DriveEnv) (total : Nat)
    (hall : ∀ k, env.uploadResult k = Except.ok ()) :
    ∀ (imgs : List (GeneratedImage × String × String)) (k : Nat),
      (uploadImagesLoop env total imgs k).1 = Except.ok () ∧
      (uploadImagesLoop env total imgs k).2.filterMap uploadsOf =
        imgs.map (fun im => (filenameFor im.1 im.2.1 im.2.2, dataAfterComma im.1.src)) := by
  intro imgs
  induction imgs with
  | nil =>
    intro k
    exact ⟨rfl, rfl⟩
  | cons im rest ih =>
    intro k
    obtain ⟨img, pr, lb⟩ := im
    obtain ⟨ih1, ih2⟩ := ih (k + 1)
    unfold uploadImagesLoop
    dsimp only
    rw [hall k]
    dsimp only
    exact ⟨ih1, by simp [uploadsOf, ih2]⟩

/-- A first failing upload at position `k` rejects the loop after exactly
`k + 1` upload calls. -/
theorem uploadImagesLoop_fail (env : DriveEnv) (total : Nat) (m : String) :
    ∀ (k : Nat) (imgs : List (GeneratedImage × String × String)) (s : Nat),
      (∀ j, j < k → env.uploadResult (s + j) = Except.ok ()) →
      env.uploadResult (s + k) = Except.error m →
      k < imgs.length →
      (∃ m', (uploadImagesLoop env total imgs s).1 = Except.error m') ∧
      (uploadImagesLoop env total imgs s).2.countP isUploadEvent = k + 1 := by
  intro k
  induction k with
  | zero =>
    intro imgs s hok herr hlen
    cases imgs with
    | nil => simp at hlen
    | cons im rest =>
      obtain ⟨img, pr, lb⟩ := im
      rw [Nat.add_zero] at herr
      unfold uploadImagesLoop
      dsimp only
      rw [herr]
      exact ⟨⟨_, rfl⟩, rfl⟩
  | succ kk ih =>
    intro imgs s hok herr hlen
    cases imgs with
    | nil => simp at hlen
    | cons im rest =>
      obtain ⟨img, pr, lb⟩ := im
      have h0 : env.uploadResult s = Except.ok () := by simpa using hok 0 (Nat.succ_pos kk)
      obtain ⟨ih1, ih2⟩ := ih rest (s + 1)
        (fun j hj => by
          simpa [Nat.add_assoc, Nat.add_comm, Nat.add_left_comm] using hok (j + 1) (by omega))
        (by simpa [Nat.add_assoc, Nat.add_comm, Nat.add_left_comm] using herr)
        (by simpa using Nat.lt_of_succ_lt_succ hlen)
      unfold uploadImagesLoop
      dsimp only
      rw [h0]
      dsimp only
      refine ⟨ih1, ?_⟩
      rw [List.countP_append, ih2]
      have hev : List.countP isUploadEvent
          [DriveEvent.statusSet ("Uploading image " ++ toString (s + 1) ++ "/" ++
            toString total ++ ": " ++ lb ++ "..."),
           DriveEvent.uploadCall (filenameFor img pr lb) (dataAfterComma img.src)] = 1 := rfl
      omega

/-- The core of `saveToDrive` on the all-successful path. -/
theorem saveToDriveCore_ok (data : GeneratedData) (campaign : String) (env : DriveEnv)
    (r c : String) (hin : env.initResult = Except.ok ()) (hau : env.authResult = Except.ok ())
    (hrf : env.rootFolder = Except.ok r) (hcf : env.campaignFolder = Except.ok c)
    (hall : ∀ k, env.uploadResult k = Except.ok ()) :
    (saveToDriveCore data campaign env).1 = Except.ok () ∧
    (saveToDriveCore data campaign env).2.filterMap uploadsOf =
      (imagesWithMetadata data).map
        (fun im => (filenameFor im.1 im.2.1 im.2.2, dataAfterComma im.1.src)) ++
      [("social-media-content.txt", textContentOf data campaign)] := by
  obtain ⟨hl1, hl2⟩ := uploadImagesLoop_ok env (imagesWithMetadata data).length hall
    (imagesWithMetadata data) 0
  unfold saveToDriveCore
  rw [hin, hau, hrf, hcf]
  dsimp only
  rw [hl1, hall (imagesWithMetadata data).length]
  dsimp only
  exact ⟨rfl, by simp [uploadsOf, hl2]⟩

/-- The core of `saveToDrive` when the `k`-th upload is the first failure. -/
theorem saveToDriveCore_fail (data : GeneratedData) (campaign : String) (env : DriveEnv)
    (r c m : String) (k : Nat)
    (hin : env.initResult = Except.ok ()) (hau : env.authResult = Except.ok ())
    (hrf : env.rootFolder = Except.ok r) (hcf : env.campaignFolder = Except.ok c)
    (hok : ∀ j, j < k → env.uploadResult j = Except.ok ())
    (herr : env.uploadResult k = Except.error m)
    (hlen : k < (imagesWithMetadata data).length) :
    (∃ m', (saveToDriveCore data campaign env).1 = Except.error m') ∧
    (saveToDriveCore data campaign env).2.countP isUploadEvent = k + 1 := by
  obtain ⟨⟨m', hm'⟩, hcount⟩ := uploadImagesLoop_fail env (imagesWithMetadata data).length m k
    (imagesWithMetadata data) 0 (fun j hj => by simpa using hok j hj) (by simpa using herr) hlen
  unfold saveToDriveCore
  rw [hin, hau, hrf, hcf]
  dsimp only
  rw [hm']
  refine ⟨⟨m', rfl⟩, ?_⟩
  dsimp only
  rw [List.countP_append, hcount]
  norm_num [List.countP_append, List.countP_cons, List.countP_nil, isUploadEvent]

/-- C9: with the clients initialized, the user authenticated and the
folders created, `saveToDrive` uploads one file per image — each
perspective's main image followed by its extended frames, in perspective
order — then exactly one final text file `social-media-content.txt` whose
content carries every perspective's prompts and every social post; on a
failure it sets a status message beginning `Error:` as its last status and
rethrows, and a failing upload stops the export after that upload call. -/
theorem saveToDrive_spec (data : GeneratedData) (campaign : String) (env : DriveEnv)
    (r c : String)
    (hin : env.initResult = Except.ok ()) (hau : env.authResult = Except.ok ())
    (hrf : env.rootFolder = Except.ok r) (hcf : env.campaignFolder = Except.ok c) :
    ((∀ k, env.uploadResult k = Except.ok ()) →
      (saveToDrive data campaign env).1 = Except.ok () ∧
      (saveToDrive data campaign env).2.filterMap uploadsOf =
        (imagesWithMetadata data).map
          (fun im => (filenameFor im.1 im.2.1 im.2.2, dataAfterComma im.1.src)) ++
        [("social-media-content.txt", textContentOf data campaign)]) ∧
    (∀ p ∈ data.perspectives, occursIn p.prompt (textContentOf data campaign) ∧
      ∀ v, p.veoPrompt = some v → v ≠ "" → occursIn v (textContentOf data campaign)) ∧
    (∀ pp ∈ data.socialPosts, occursIn pp.2 (textContentOf data campaign)) ∧
    (∀ m, (saveToDrive data campaign env).1 = .error m →
      (saveToDrive data campaign env).2.getLast? =
        some (DriveEvent.statusSet ("Error: " ++ m)) ∧
      strStartsWith ("Error: " ++ m) "Error:" = true) ∧
    (∀ m k, (∀ j, j < k → env.uploadResult j = Except.ok ()) →
      env.uploadResult k = Except.error m → k < (imagesWithMetadata data).length →
      (∃ m', (saveToDrive data campaign env).1 = Except.error m') ∧
      (saveToDrive data campaign env).2.countP isUploadEvent = k + 1) := by
  refine ⟨?_, (textContent_occurrences data campaign).1, (textContent_occurrences data campaign).2,
    ?_, ?_⟩
  · intro hall
    obtain ⟨h1, h2⟩ := saveToDriveCore_ok data campaign env r c hin hau hrf hcf hall
    unfold saveToDrive
    rcases hsc : saveToDriveCore data campaign env with ⟨res, tr⟩
    rw [hsc] at h1 h2
    cases res with
    | error e =>
      dsimp only at h1
      cases h1
    | ok _ => exact ⟨rfl, h2⟩
  · intro m hm
    unfold saveToDrive at hm ⊢
    rcases hsc : saveToDriveCore data campaign env with ⟨res, tr⟩
    rw [hsc] at hm
    cases res with
    | ok _ =>
      dsimp only at hm
      cases hm
    | error m0 =>
      dsimp only at hm
      injection hm with h2
      subst h2
      constructor
      · simp
      · rfl
  · intro m k hok herr hlen
    obtain ⟨⟨m', hm'⟩, hcount⟩ := saveToDriveCore_fail data campaign env r c m k
      hin hau hrf hcf hok herr hlen
    unfold saveToDrive
    rcases hsc : saveToDriveCore data campaign env with ⟨res, tr⟩
    rw [hsc] at hm' hcount
    cases res with
    | ok _ =>
      dsimp only at hm'
      cases hm'
    | error m0 =>
      dsimp only at hm' hcount ⊢
      refine ⟨⟨m0, rfl⟩, ?_⟩
      rw [List.countP_append, hcount]
      norm_num [List.countP_cons, List.countP_nil, isUploadEvent]

/-- Witness for C9: exporting the two-perspective deck with everything
succeeding uploads the three images in order and then the single text
file. -/
theorem saveToDrive_spec_witness :
    (saveToDrive witData "Campaign" witDriveOk).1 = Except.ok () ∧
    (saveToDrive witData "Campaign" witDriveOk).2.filterMap uploadsOf =
      (imagesWithMetadata witData).map
        (fun im => (filenameFor im.1 im.2.1 im.2.2, dataAfterComma im.1.src)) ++
      [("social-media-content.txt", textContentOf witData "Campaign")] :=
  (saveToDrive_spec witData "Campaign" witDriveOk "root" "campaign" rfl rfl rfl rfl).1
    (fun _ => rfl)
